import Mathlib

/-!
# Verification development for the aivmlib-web metadata subsystem

Shallow embedding, in Lean 4, of the metadata subsystem of the
aivmlib-web library (AIVM / AIVMX voice-model container metadata):

* the tensor-container (Safetensors-layout) codec — a length-prefixed
  JSON header followed by an opaque payload region;
* the schema validator turning a raw string-to-string metadata map into
  a typed aggregate;
* the reconciliation engine (generate / update / sync).

Conventions of the embedding:

* Container bytes are modelled as `List Char` (each element standing for
  one byte / one code unit of the decoded header text; the UTF-8
  encode/decode pair of the platform is the identity in this model).
* `JSON.parse` / `JSON.stringify` of the platform are modelled by an
  executable serializer `stringifyVal` and an executable recursive-descent
  reader `parseJson` over a JSON value type `JVal` (numbers restricted to
  integers; strings serialized with escapes for the quote and backslash
  characters).  A round-trip theorem `parseJson_stringifyVal` is proved.
* JavaScript plain objects used as string-keyed maps are modelled as
  insertion-ordered association lists; property assignment `o[k] = v` is
  `aset` (update-in-place when the key exists, append otherwise), and key
  iteration order is list order, matching JS insertion-order semantics.
* In-place mutation of an `AivmMetadata` argument is modelled by explicit
  state passing: an operation that mutates its argument returns the final
  state of that argument alongside its result.
-/

namespace Aivmlib

/-- Byte strings / decoded header text: one `Char` per byte. -/
abbrev Bytes := List Char

/-- JS object property read: first binding of the key, if any. -/
def alookup {α β : Type} [DecidableEq α] : List (α × β) → α → Option β
  | [], _ => none
  | (a, b) :: rest, k => if a = k then some b else alookup rest k

/-- JS object property assignment `o[k] = v`: update in place when the key
exists (the key keeps its position), append otherwise. -/
def aset {α β : Type} [DecidableEq α] : List (α × β) → α → β → List (α × β)
  | [], k, v => [(k, v)]
  | (a, b) :: rest, k, v =>
    if a = k then (a, v) :: rest else (a, b) :: aset rest k v

/-- Keys of a JS object in iteration order (`Object.keys`). -/
def akeys {α β : Type} : List (α × β) → List α := List.map Prod.fst

/-- Values of a JS object in iteration order (`Object.values`). -/
def avalues {α β : Type} : List (α × β) → List β := List.map Prod.snd

/-- JSON values, as produced by the platform JSON reader.  Numbers are
restricted to integers (the header fields this library touches are string
maps; numeric header fields are integral tensor offsets). -/
inductive JVal where
  | jnull : JVal
  | jbool (b : Bool) : JVal
  | jnum (n : Int) : JVal
  | jstr (s : String) : JVal
  | jarr (elems : List JVal) : JVal
  | jobj (fields : List (String × JVal)) : JVal

/-- The quote character. -/
def qu : Char := Char.ofNat 34

/-- The backslash character. -/
def bs : Char := Char.ofNat 92

/-- Escape a JSON string body: quote and backslash get a backslash prefix. -/
def escapeChars : List Char → List Char
  | [] => []
  | c :: rest =>
    if c = qu ∨ c = bs then bs :: c :: escapeChars rest else c :: escapeChars rest

/-- The decimal digit character for a digit value. -/
def digitCh : Nat → Char
  | 0 => '0'
  | 1 => '1'
  | 2 => '2'
  | 3 => '3'
  | 4 => '4'
  | 5 => '5'
  | 6 => '6'
  | 7 => '7'
  | 8 => '8'
  | _ => '9'

/-- Decimal digits (most significant first) of a natural number. -/
def digitsOf (n : Nat) : List Char :=
  if _h : n < 10 then [digitCh n]
  else digitsOf (n / 10) ++ [digitCh (n % 10)]
termination_by n
decreasing_by exact Nat.div_lt_self (by omega) (by omega)

/-- Decimal rendering of an integer. -/
def stringifyInt : Int → List Char
  | Int.ofNat n => digitsOf n
  | Int.negSucc m => '-' :: digitsOf (m + 1)

mutual

/-- `JSON.stringify` (no whitespace), emitting header text. -/
def stringifyVal : JVal → List Char
  | JVal.jnull => ['n', 'u', 'l', 'l']
  | JVal.jbool true => ['t', 'r', 'u', 'e']
  | JVal.jbool false => ['f', 'a', 'l', 's', 'e']
  | JVal.jnum n => stringifyInt n
  | JVal.jstr s => qu :: (escapeChars s.data ++ [qu])
  | JVal.jarr [] => ['[', ']']
  | JVal.jarr (v :: vs) => '[' :: stringifyItems v vs
  | JVal.jobj [] => ['{', '}']
  | JVal.jobj (f :: fs) => '{' :: stringifyFields f fs
termination_by v => sizeOf v
decreasing_by all_goals (simp_wf; try omega)

/-- Comma-separated array items, closed by the bracket. -/
def stringifyItems : JVal → List JVal → List Char
  | v, [] => stringifyVal v ++ [']']
  | v, w :: ws => stringifyVal v ++ ',' :: stringifyItems w ws
termination_by v vs => 1 + sizeOf v + sizeOf vs
decreasing_by all_goals (simp_wf; try omega)

/-- Comma-separated object members, closed by the brace. -/
def stringifyFields : String × JVal → List (String × JVal) → List Char
  | (k, v), [] => (qu :: (escapeChars k.data ++ [qu])) ++ ':' :: (stringifyVal v ++ ['}'])
  | (k, v), f :: fs =>
    (qu :: (escapeChars k.data ++ [qu])) ++ ':' :: (stringifyVal v ++ ',' :: stringifyFields f fs)
termination_by f fs => 1 + sizeOf f + sizeOf fs
decreasing_by all_goals (simp_wf; try omega)

end

/-- Read a string body up to the closing quote, undoing `escapeChars`. -/
def parseStrBody : List Char → Option (List Char × List Char)
  | [] => none
  | c :: rest =>
    if c = qu then some ([], rest)
    else if c = bs then
      match rest with
      | [] => none
      | d :: rest2 =>
        if d = qu ∨ d = bs then
          match parseStrBody rest2 with
          | none => none
          | some (s, r) => some (d :: s, r)
        else none
    else
      match parseStrBody rest with
      | none => none
      | some (s, r) => some (c :: s, r)

/-- Is this character a decimal digit? -/
def isDigitCh (c : Char) : Bool := 48 ≤ c.toNat && c.toNat ≤ 57

/-- Split off the leading run of decimal digits. -/
def takeDigits : List Char → List Char × List Char
  | [] => ([], [])
  | c :: rest =>
    if isDigitCh c then
      match takeDigits rest with
      | (ds, r) => (c :: ds, r)
    else ([], c :: rest)

/-- Numeric value of a digit run (most significant first). -/
def digitsVal (ds : List Char) : Nat :=
  ds.foldl (fun a c => a * 10 + (c.toNat - 48)) 0

/-- Read an integer literal (optional minus sign, then digits). -/
def parseNum : List Char → Option (Int × List Char)
  | [] => none
  | c :: rest =>
    if c = '-' then
      match takeDigits rest with
      | ([], _) => none
      | (ds, r) => some (- (digitsVal ds : Int), r)
    else
      match takeDigits (c :: rest) with
      | ([], _) => none
      | (ds, r) => some ((digitsVal ds : Int), r)

/-- Expect the given literal characters, then succeed with the value. -/
def expectLit : List Char → List Char → JVal → Option (JVal × List Char)
  | [], rest, v => some (v, rest)
  | _ :: _, [], _ => none
  | e :: es, c :: rest, v => if c = e then expectLit es rest v else none

mutual

/-- Recursive-descent JSON value reader.  The fuel argument strictly
decreases on every recursive call; fuel larger than the length of the
serialized value is always enough (`parse_stringify_val`). -/
def parseVal : Nat → List Char → Option (JVal × List Char)
  | 0, _ => none
  | _ + 1, [] => none
  | n + 1, c :: rest =>
    if c = qu then (parseStrBody rest).map (fun p => (JVal.jstr (String.mk p.1), p.2))
    else if c = 'n' then expectLit ['u', 'l', 'l'] rest JVal.jnull
    else if c = 't' then expectLit ['r', 'u', 'e'] rest (JVal.jbool true)
    else if c = 'f' then expectLit ['a', 'l', 's', 'e'] rest (JVal.jbool false)
    else if c = '[' then
      match rest with
      | [] => none
      | d :: r =>
        if d = ']' then some (JVal.jarr [], r)
        else (parseItems n (d :: r)).map (fun p => (JVal.jarr p.1, p.2))
    else if c = '{' then
      match rest with
      | [] => none
      | d :: r =>
        if d = '}' then some (JVal.jobj [], r)
        else (parseFields n (d :: r)).map (fun p => (JVal.jobj p.1, p.2))
    else if c = '-' ∨ isDigitCh c then
      (parseNum (c :: rest)).map (fun p => (JVal.jnum p.1, p.2))
    else none

/-- One or more array items followed by the closing bracket. -/
def parseItems : Nat → List Char → Option (List JVal × List Char)
  | 0, _ => none
  | n + 1, s =>
    (parseVal n s).bind (fun p =>
      match p.2 with
      | [] => none
      | d :: r2 =>
        if d = ',' then (parseItems n r2).map (fun q => (p.1 :: q.1, q.2))
        else if d = ']' then some ([p.1], r2)
        else none)

/-- One or more object members followed by the closing brace. -/
def parseFields : Nat → List Char → Option (List (String × JVal) × List Char)
  | 0, _ => none
  | n + 1, s =>
    match s with
    | [] => none
    | c :: rest =>
      if c = qu then
        (parseStrBody rest).bind (fun kp =>
          match kp.2 with
          | [] => none
          | d :: r2 =>
            if d = ':' then
              (parseVal n r2).bind (fun vp =>
                match vp.2 with
                | [] => none
                | e :: r4 =>
                  if e = ',' then
                    (parseFields n r4).map (fun q => ((String.mk kp.1, vp.1) :: q.1, q.2))
                  else if e = '}' then some ([(String.mk kp.1, vp.1)], r4)
                  else none)
            else none)
      else none

end

/-- `JSON.parse`: read one value consuming the whole input. -/
def parseJson (s : List Char) : Option JVal :=
  match parseVal (s.length + 1) s with
  | some (v, []) => some v
  | _ => none

/-- The input does not start with a decimal digit (used to delimit a
serialized number from its right context). -/
def noLeadDigit : List Char → Prop
  | [] => True
  | c :: _ => isDigitCh c = false

theorem mk_data (s : String) : String.mk s.data = s := by
  cases s
  rfl

theorem parseStrBody_escape (s rest : List Char) :
    parseStrBody (escapeChars s ++ (qu :: rest)) = some (s, rest) := by
  induction s with
  | nil =>
    show parseStrBody (qu :: rest) = some ([], rest)
    rw [parseStrBody.eq_def]
    simp
  | cons c s ih =>
    by_cases hc : c = qu ∨ c = bs
    · have h1 : escapeChars (c :: s) = bs :: c :: escapeChars s := by
        simp [escapeChars, hc]
      rw [h1, List.cons_append, List.cons_append, parseStrBody.eq_def]
      simp [ih, hc, (by decide : bs ≠ qu)]
    · push_neg at hc
      have h1 : escapeChars (c :: s) = c :: escapeChars s := by
        simp [escapeChars, hc.1, hc.2]
      rw [h1, List.cons_append, parseStrBody.eq_def]
      simp [ih, hc.1, hc.2]

theorem digitCh_isDigit (d : Nat) : isDigitCh (digitCh d) = true := by
  rcases d with _|_|_|_|_|_|_|_|_|_ <;> simp [digitCh, isDigitCh]

theorem digitCh_toNat (d : Nat) (h : d < 10) : (digitCh d).toNat = 48 + d := by
  rcases d with _|_|_|_|_|_|_|_|_|d
  · rfl
  · rfl
  · rfl
  · rfl
  · rfl
  · rfl
  · rfl
  · rfl
  · rfl
  · rcases d with _|d
    · rfl
    · omega

theorem digitsOf_ne_nil (n : Nat) : digitsOf n ≠ [] := by
  rw [digitsOf]
  split <;> simp

theorem digitsOf_all_digits (n : Nat) : ∀ c ∈ digitsOf n, isDigitCh c = true := by
  induction n using Nat.strong_induction_on with
  | _ n ih =>
    rw [digitsOf]
    split
    · intro c hc
      simp at hc
      subst hc
      exact digitCh_isDigit n
    · intro c hc
      rcases List.mem_append.mp hc with h | h
      · exact ih (n / 10) (Nat.div_lt_self (by omega) (by omega)) c h
      · simp at h
        subst h
        exact digitCh_isDigit (n % 10)

theorem digitsVal_append_single (xs : List Char) (c : Char) :
    digitsVal (xs ++ [c]) = 10 * digitsVal xs + (c.toNat - 48) := by
  simp [digitsVal, List.foldl_append]
  ring

theorem digitsVal_digitsOf (n : Nat) : digitsVal (digitsOf n) = n := by
  induction n using Nat.strong_induction_on with
  | _ n ih =>
    rw [digitsOf]
    split
    · next h =>
      simp [digitsVal, digitCh_toNat n h]
    · next h =>
      rw [digitsVal_append_single, ih (n / 10) (Nat.div_lt_self (by omega) (by omega)),
        digitCh_toNat (n % 10) (Nat.mod_lt _ (by omega))]
      omega

theorem takeDigits_exact (ds rest : List Char) (hds : ∀ c ∈ ds, isDigitCh c = true)
    (hrest : noLeadDigit rest) : takeDigits (ds ++ rest) = (ds, rest) := by
  induction ds with
  | nil =>
    cases rest with
    | nil => rfl
    | cons c r =>
      simp only [List.nil_append, takeDigits]
      rw [if_neg]
      simp only [noLeadDigit] at hrest
      simp [hrest]
  | cons c ds ih =>
    have hc := hds c (by simp)
    have ih2 := ih (fun x hx => hds x (by simp [hx]))
    simp only [List.cons_append, takeDigits, hc, if_true, List.append_eq, ih2]

theorem parseNum_stringifyInt (i : Int) (rest : List Char) (hrest : noLeadDigit rest) :
    parseNum (stringifyInt i ++ rest) = some (i, rest) := by
  cases i with
  | ofNat n =>
    have hne := digitsOf_ne_nil n
    rcases hd : digitsOf n with _ | ⟨c, cs⟩
    · exact absurd hd hne
    have hcd : isDigitCh c = true := digitsOf_all_digits n c (by rw [hd]; simp)
    have hc45 : ¬ c = '-' := by
      intro h
      subst h
      simp [isDigitCh] at hcd
    simp only [stringifyInt, hd, List.cons_append, parseNum]
    rw [if_neg hc45]
    have : takeDigits (c :: (cs ++ rest)) = (c :: cs, rest) := by
      have := takeDigits_exact (digitsOf n) rest (digitsOf_all_digits n) hrest
      rw [hd] at this
      simpa using this
    rw [this]
    have : digitsVal (c :: cs) = n := by
      have := digitsVal_digitsOf n
      rw [hd] at this
      exact this
    simp [this]
  | negSucc m =>
    have htd := takeDigits_exact (digitsOf (m + 1)) rest (digitsOf_all_digits (m + 1)) hrest
    have hne := digitsOf_ne_nil (m + 1)
    rcases hd : digitsOf (m + 1) with _ | ⟨c, cs⟩
    · exact absurd hd hne
    rw [hd] at htd
    have hv : digitsVal (c :: cs) = m + 1 := by
      have := digitsVal_digitsOf (m + 1)
      rw [hd] at this
      exact this
    simp only [stringifyInt, hd, List.cons_append, parseNum, if_true]
    rw [List.cons_append] at htd
    rw [htd]
    show some (-(digitsVal (c :: cs) : Int), rest) = some (Int.negSucc m, rest)
    rw [hv]
    norm_num [Int.negSucc_eq]

theorem expectLit_exact (lit rest : List Char) (v : JVal) :
    expectLit lit (lit ++ rest) v = some (v, rest) := by
  induction lit with
  | nil => rfl
  | cons c cs ih => simp [expectLit, ih]

theorem digit_ne_marks (c : Char) (h : isDigitCh c = true) :
    c ≠ qu ∧ c ≠ 'n' ∧ c ≠ 't' ∧ c ≠ 'f' ∧ c ≠ '[' ∧ c ≠ '{' ∧ c ≠ ']' ∧ c ≠ '}' := by
  refine ⟨?_, ?_, ?_, ?_, ?_, ?_, ?_, ?_⟩ <;>
    (intro heq; subst heq; revert h; decide)

/-- The serialized form of a value is nonempty and starts with a character
that is neither a closing bracket nor a closing brace. -/
theorem stringifyVal_head_cons (v : JVal) :
    ∃ c cs, stringifyVal v = c :: cs ∧ c ≠ ']' ∧ c ≠ '}' := by
  cases v with
  | jnull => exact ⟨'n', ['u', 'l', 'l'], by simp [stringifyVal], by decide, by decide⟩
  | jbool b =>
    cases b with
    | true => exact ⟨'t', ['r', 'u', 'e'], by simp [stringifyVal], by decide, by decide⟩
    | false => exact ⟨'f', ['a', 'l', 's', 'e'], by simp [stringifyVal], by decide, by decide⟩
  | jstr s =>
    exact ⟨qu, escapeChars s.data ++ [qu], by simp [stringifyVal], by decide, by decide⟩
  | jarr l =>
    cases l with
    | nil => exact ⟨'[', [']'], by simp [stringifyVal], by decide, by decide⟩
    | cons v vs =>
      exact ⟨'[', stringifyItems v vs, by simp [stringifyVal], by decide, by decide⟩
  | jobj l =>
    cases l with
    | nil => exact ⟨'{', ['}'], by simp [stringifyVal], by decide, by decide⟩
    | cons f fs =>
      exact ⟨'{', stringifyFields f fs, by simp [stringifyVal], by decide, by decide⟩
  | jnum i =>
    cases i with
    | ofNat k =>
      have hne := digitsOf_ne_nil k
      rcases hd : digitsOf k with _ | ⟨c, cs⟩
      · exact absurd hd hne
      have hcd : isDigitCh c = true := digitsOf_all_digits k c (by rw [hd]; simp)
      have h8 := digit_ne_marks c hcd
      exact ⟨c, cs, by simp [stringifyVal, stringifyInt, hd], h8.2.2.2.2.2.2.1,
        h8.2.2.2.2.2.2.2⟩
    | negSucc m =>
      exact ⟨'-', digitsOf (m + 1), by simp [stringifyVal, stringifyInt], by decide, by decide⟩

theorem parse_stringify_main : ∀ n : Nat,
    (∀ v rest, (stringifyVal v).length < n → noLeadDigit rest →
      parseVal n (stringifyVal v ++ rest) = some (v, rest)) ∧
    (∀ v vs rest, (stringifyItems v vs).length < n →
      parseItems n (stringifyItems v vs ++ rest) = some (v :: vs, rest)) ∧
    (∀ f fs rest, (stringifyFields f fs).length < n →
      parseFields n (stringifyFields f fs ++ rest) = some (f :: fs, rest)) := by
  intro n
  induction n using Nat.strong_induction_on with
  | _ n IH =>
  rcases n with _ | m
  · refine ⟨?_, ?_, ?_⟩
    · intro v rest hlen _
      exact absurd hlen (by omega)
    · intro v vs rest hlen
      exact absurd hlen (by omega)
    · intro f fs rest hlen
      exact absurd hlen (by omega)
  obtain ⟨ihV, ihI, ihF⟩ := IH m (by omega)
  refine ⟨?_, ?_, ?_⟩
  · intro v rest hlen hrest
    cases v with
    | jnull =>
      simp only [stringifyVal, List.cons_append, List.nil_append]
      rw [parseVal.eq_def]
      simp +decide
      rw [show ('u' :: 'l' :: 'l' :: rest) = (['u','l','l'] ++ rest) from rfl, expectLit_exact]
    | jbool b =>
      cases b with
      | true =>
        simp only [stringifyVal, List.cons_append, List.nil_append]
        rw [parseVal.eq_def]
        simp +decide
        rw [show ('r' :: 'u' :: 'e' :: rest) = (['r','u','e'] ++ rest) from rfl, expectLit_exact]
      | false =>
        simp only [stringifyVal, List.cons_append, List.nil_append]
        rw [parseVal.eq_def]
        simp +decide
        rw [show ('a' :: 'l' :: 's' :: 'e' :: rest) = (['a','l','s','e'] ++ rest) from rfl,
          expectLit_exact]
    | jstr s =>
      simp only [stringifyVal, List.cons_append, List.append_assoc, List.singleton_append]
      rw [parseVal.eq_def]
      simp +decide [parseStrBody_escape, mk_data]
    | jnum i =>
      have hmain := parseNum_stringifyInt i rest hrest
      cases i with
      | ofNat k =>
        have hne := digitsOf_ne_nil k
        rcases hd : digitsOf k with _ | ⟨c, cs⟩
        · exact absurd hd hne
        have hcd : isDigitCh c = true := digitsOf_all_digits k c (by rw [hd]; simp)
        have h8 := digit_ne_marks c hcd
        simp only [stringifyInt, hd, List.cons_append] at hmain
        simp only [stringifyVal, stringifyInt, hd, List.cons_append]
        rw [parseVal.eq_def]
        simp [h8.1, h8.2.1, h8.2.2.1, h8.2.2.2.1, h8.2.2.2.2.1, h8.2.2.2.2.2.1, hcd, hmain]
      | negSucc p =>
        simp only [stringifyInt, List.cons_append] at hmain
        simp only [stringifyVal, stringifyInt, List.cons_append]
        rw [parseVal.eq_def]
        simp +decide [hmain]
    | jarr l =>
      cases l with
      | nil =>
        simp only [stringifyVal, List.cons_append, List.nil_append]
        rw [parseVal.eq_def]
        simp +decide
      | cons v vs =>
        obtain ⟨c, cs, hc, hcne, _⟩ := stringifyVal_head_cons v
        have hlen2 : (stringifyItems v vs).length < m := by
          simp only [stringifyVal, List.length_cons] at hlen
          omega
        have ht : ∃ t, stringifyItems v vs = stringifyVal v ++ t := by
          cases vs with
          | nil => exact ⟨[']'], by simp [stringifyItems]⟩
          | cons w ws => exact ⟨',' :: stringifyItems w ws, by simp [stringifyItems]⟩
        obtain ⟨t, htv⟩ := ht
        have hshape : stringifyItems v vs ++ rest = c :: (cs ++ (t ++ rest)) := by
          rw [htv, hc]
          simp
        have happ := ihI v vs rest hlen2
        rw [hshape] at happ
        simp only [stringifyVal, List.cons_append, hshape]
        rw [parseVal.eq_def]
        simp +decide [hcne, happ]
    | jobj l =>
      cases l with
      | nil =>
        simp only [stringifyVal, List.cons_append, List.nil_append]
        rw [parseVal.eq_def]
        simp +decide
      | cons f fs =>
        have hlen2 : (stringifyFields f fs).length < m := by
          simp only [stringifyVal, List.length_cons] at hlen
          omega
        have ht : ∃ t, stringifyFields f fs = qu :: t := by
          rcases f with ⟨k, v⟩
          cases fs with
          | nil =>
            exact ⟨escapeChars k.data ++ qu :: ':' :: (stringifyVal v ++ ['}']),
              by simp [stringifyFields]⟩
          | cons g gs =>
            exact ⟨escapeChars k.data ++ qu :: ':' :: (stringifyVal v ++ ',' :: stringifyFields g gs),
              by simp [stringifyFields]⟩
        obtain ⟨t, htv⟩ := ht
        have hshape : stringifyFields f fs ++ rest = qu :: (t ++ rest) := by
          rw [htv]
          simp
        have happ := ihF f fs rest hlen2
        rw [hshape] at happ
        simp only [stringifyVal, List.cons_append, hshape]
        rw [parseVal.eq_def]
        simp +decide [happ]
  · intro v vs rest hlen
    cases vs with
    | nil =>
      have hlenv : (stringifyVal v).length < m := by
        simp only [stringifyItems, List.length_append, List.length_cons, List.length_nil] at hlen
        omega
      have hnl : noLeadDigit (']' :: rest) := by
        show isDigitCh ']' = false
        decide
      have hv := ihV v (']' :: rest) hlenv hnl
      simp only [stringifyItems, List.append_assoc, List.cons_append, List.singleton_append,
        List.nil_append]
      rw [parseItems.eq_def]
      simp +decide [hv]
    | cons w ws =>
      have hlenv : (stringifyVal v).length < m := by
        simp only [stringifyItems, List.length_append, List.length_cons] at hlen
        omega
      have hlenw : (stringifyItems w ws).length < m := by
        simp only [stringifyItems, List.length_append, List.length_cons] at hlen
        omega
      have hnl : noLeadDigit (',' :: (stringifyItems w ws ++ rest)) := by
        show isDigitCh ',' = false
        decide
      have hv := ihV v (',' :: (stringifyItems w ws ++ rest)) hlenv hnl
      have hw := ihI w ws rest hlenw
      simp only [stringifyItems, List.append_assoc, List.cons_append]
      rw [parseItems.eq_def]
      simp +decide [hv, hw]
  · intro f fs rest hlen
    rcases f with ⟨k, v⟩
    cases fs with
    | nil =>
      have hlenv : (stringifyVal v).length < m := by
        simp only [stringifyFields, List.length_append, List.length_cons] at hlen
        omega
      have hnl : noLeadDigit ('}' :: rest) := by
        show isDigitCh '}' = false
        decide
      have hv := ihV v ('}' :: rest) hlenv hnl
      simp only [stringifyFields, List.append_assoc, List.cons_append, List.singleton_append,
        List.nil_append]
      rw [parseFields.eq_def]
      simp +decide [parseStrBody_escape, hv, mk_data]
    | cons g gs =>
      have hlenv : (stringifyVal v).length < m := by
        simp only [stringifyFields, List.length_append, List.length_cons] at hlen
        omega
      have hleng : (stringifyFields g gs).length < m := by
        simp only [stringifyFields, List.length_append, List.length_cons] at hlen
        omega
      have hnl : noLeadDigit (',' :: (stringifyFields g gs ++ rest)) := by
        show isDigitCh ',' = false
        decide
      have hv := ihV v (',' :: (stringifyFields g gs ++ rest)) hlenv hnl
      have hg := ihF g gs rest hleng
      simp only [stringifyFields, List.append_assoc, List.cons_append, List.singleton_append]
      rw [parseFields.eq_def]
      simp +decide [parseStrBody_escape, hv, hg, mk_data]


/-- Round trip of the modelled platform JSON pair: reading back a
serialized value yields that value. -/
theorem parseJson_stringifyVal (v : JVal) : parseJson (stringifyVal v) = some v := by
  have h := (parse_stringify_main ((stringifyVal v).length + 1)).1 v [] (by omega) trivial
  simp only [List.append_nil] at h
  simp [parseJson, h]

/-! ## Tensor-container codec (AIVM / Safetensors layout)

Byte layout: 8 bytes little-endian header length `H`, then `H` bytes of
JSON header, then the opaque payload region. -/

/-- Little-endian rendering of a natural number over `k` bytes. -/
def leBytes : Nat → Nat → Bytes
  | 0, _ => []
  | k + 1, n => Char.ofNat (n % 256) :: leBytes k (n / 256)

/-- Value of a little-endian byte string. -/
def leVal (l : Bytes) : Nat := l.foldr (fun c a => c.toNat + 256 * a) 0

/-- The 8-byte little-endian header-size prefix (`DataView.setBigUint64`,
which stores the value modulo `2 ^ 64`). -/
def u64le (n : Nat) : Bytes := leBytes 8 n

/-- `DataView.getBigUint64(0, true)`: value of the first 8 bytes. -/
def readU64 (b : Bytes) : Nat := leVal (b.take 8)

/-- The reserved header key holding the metadata map. -/
def metaKeyStr : String := "__metadata__"

/-- Error kinds observable from the container codec paths.  The library
wraps only some failures into its own AIVM-format error; the others escape
as uncaught platform exceptions, recorded here as distinct kinds. -/
inductive ContainerErr where
  | rangeError : ContainerErr
  | containerFormatError : ContainerErr
  | jsonSyntaxError : ContainerErr
  | typeError : ContainerErr
deriving DecidableEq

/-- Byte-level phase of `readAivmMetadata` (src/index.ts): read the 8-byte
little-endian header size `H`, slice `H` header bytes, JSON-parse them and
extract the `__metadata__` object.

Faithful points, in source order:
* fewer than 8 bytes: `DataView.getBigUint64` throws a `RangeError`
  outside any try/catch (`rangeError`);
* `new Uint8Array(buffer, 8, H)` with `8 + H` exceeding the length throws
  inside the try/catch and is wrapped into the AIVM-format error
  (`containerFormatError`);
* `JSON.parse(header_text)` sits OUTSIDE the try/catch: a malformed header
  surfaces as an uncaught `SyntaxError` (`jsonSyntaxError`);
* a missing `__metadata__` key (or a primitive value there) makes the
  subsequent property reads see `undefined`, modelled as the empty map;
  a `null` header would throw an uncaught `TypeError`. -/
def readAivmRawMetadata (b : Bytes) : Except ContainerErr (List (String × JVal)) :=
  if b.length < 8 then Except.error ContainerErr.rangeError
  else
    if b.length < 8 + readU64 b then Except.error ContainerErr.containerFormatError
    else
      match parseJson ((b.drop 8).take (readU64 b)) with
      | none => Except.error ContainerErr.jsonSyntaxError
      | some JVal.jnull => Except.error ContainerErr.typeError
      | some (JVal.jobj ms) =>
        match alookup ms metaKeyStr with
        | some (JVal.jobj mm) => Except.ok mm
        | _ => Except.ok []
      | some _ => Except.ok []

/-- JavaScript truthiness of a JSON value. -/
def jsTruthy : JVal → Bool
  | JVal.jnull => false
  | JVal.jbool b => b
  | JVal.jnum n => decide (n ≠ 0)
  | JVal.jstr s => decide (s ≠ "")
  | JVal.jarr _ => true
  | JVal.jobj _ => true

/-- Upsert every serialized metadata entry into the existing `__metadata__`
object: existing keys are overwritten in place, new keys appended. -/
def mergeMeta (old : List (String × JVal)) (entries : List (String × String)) :
    List (String × JVal) :=
  entries.foldl (fun acc kv => aset acc kv.1 (JVal.jstr kv.2)) old

/-- Byte-level phase of `writeAivmMetadata` (src/index.ts), taking the
already-serialized raw metadata entries: decode the original header using
the original length `H`, upsert the entries into `__metadata__`,
re-serialize the header, and emit the new size prefix, the new header, and
the original payload region `bytes[8+H ..]` unchanged.

Faithful points, in source order:
* fewer than 8 bytes: uncaught `RangeError` from `getBigUint64`;
* `Uint8Array.slice(8, 8 + H)` clamps (no failure), so the header slice is
  `take H (drop 8 b)` even when short;
* `JSON.parse` here IS inside the try/catch: failure is wrapped into the
  AIVM-format error;
* a `null` header throws an uncaught `TypeError` at the property read;
  a non-null, non-object header leaves the serialized header unchanged
  (property assignment on a primitive is silently ignored, and
  `JSON.stringify` drops non-index properties of an array), losing the
  entries;
* when `8 + H` exceeds the length, the output allocation or its `set` call
  throws an uncaught `RangeError`. -/
def writeAivmRaw (b : Bytes) (entries : List (String × String)) : Except ContainerErr Bytes :=
  if b.length < 8 then Except.error ContainerErr.rangeError
  else
    let H := readU64 b
    match parseJson ((b.drop 8).take H) with
    | none => Except.error ContainerErr.containerFormatError
    | some JVal.jnull => Except.error ContainerErr.typeError
    | some j =>
      if b.length < 8 + H then Except.error ContainerErr.rangeError
      else
        match j with
        | JVal.jobj ms =>
          let newMetaVal : JVal :=
            match alookup ms metaKeyStr with
            | none => JVal.jobj (mergeMeta [] entries)
            | some (JVal.jobj mm) => JVal.jobj (mergeMeta mm entries)
            | some v => if jsTruthy v then v else JVal.jobj (mergeMeta [] entries)
          let nh := stringifyVal (JVal.jobj (aset ms metaKeyStr newMetaVal))
          Except.ok (u64le nh.length ++ nh ++ b.drop (8 + H))
        | j =>
          let nh := stringifyVal j
          Except.ok (u64le nh.length ++ nh ++ b.drop (8 + H))

set_option maxRecDepth 4096 in
theorem toNat_ofNat_lt : ∀ m : Nat, m < 256 → (Char.ofNat m).toNat = m := by
  decide

theorem leBytes_length (k n : Nat) : (leBytes k n).length = k := by
  induction k generalizing n with
  | zero => rfl
  | succ k ih => simp [leBytes, ih]

theorem u64le_length (n : Nat) : (u64le n).length = 8 := leBytes_length 8 n

theorem leVal_leBytes (k n : Nat) : leVal (leBytes k n) = n % 256 ^ k := by
  induction k generalizing n with
  | zero => simp [leBytes, leVal, Nat.mod_one]
  | succ k ih =>
    have h1 : leVal (leBytes (k + 1) n) = (Char.ofNat (n % 256)).toNat + 256 * leVal (leBytes k (n / 256)) := by
      simp [leBytes, leVal]
    rw [h1, ih, toNat_ofNat_lt (n % 256) (Nat.mod_lt _ (by omega)),
      Nat.pow_succ, Nat.mul_comm (256 ^ k) 256, Nat.mod_mul]

theorem leVal_u64le (n : Nat) : leVal (u64le n) = n % 2 ^ 64 := by
  have := leVal_leBytes 8 n
  norm_num at this ⊢
  exact this

theorem readU64_spec (n : Nat) (rest : Bytes) : readU64 (u64le n ++ rest) = n % 2 ^ 64 := by
  have h8 : (u64le n).length = 8 := u64le_length n
  rw [readU64, show (u64le n ++ rest).take 8 = u64le n by rw [← h8, List.take_left], leVal_u64le]

theorem alookup_aset_self {β : Type} (l : List (String × β)) (k : String) (v : β) :
    alookup (aset l k v) k = some v := by
  induction l with
  | nil => simp [aset, alookup]
  | cons p rest ih =>
    rcases p with ⟨a, b⟩
    by_cases h : a = k
    · simp [aset, alookup, h]
    · simp [aset, alookup, h, ih]

theorem alookup_aset_ne {β : Type} (l : List (String × β)) (k k' : String) (v : β)
    (h : k' ≠ k) : alookup (aset l k v) k' = alookup l k' := by
  induction l with
  | nil => simp [aset, alookup, Ne.symm h]
  | cons p rest ih =>
    rcases p with ⟨a, b⟩
    by_cases ha : a = k
    · subst ha
      simp [aset, alookup, Ne.symm h]
    · simp only [aset, if_neg ha, alookup]
      by_cases ha' : a = k'
      · simp [ha']
      · simp [ha', ih]

theorem alookup_eq_none_of_not_mem {β : Type} (l : List (String × β)) (k : String)
    (h : k ∉ akeys l) : alookup l k = none := by
  induction l with
  | nil => rfl
  | cons p rest ih =>
    rcases p with ⟨a, b⟩
    rw [show akeys ((a, b) :: rest) = a :: akeys rest from rfl, List.mem_cons] at h
    push_neg at h
    simp [alookup, Ne.symm h.1, ih h.2]

/-- Lookup in the merged metadata object: entry keys win, untouched keys
fall back to the old object. -/
theorem alookup_mergeMeta (entries : List (String × String)) (acc : List (String × JVal))
    (hk : (akeys entries).Nodup) (k : String) :
    alookup (mergeMeta acc entries) k =
      match alookup entries k with
      | some v => some (JVal.jstr v)
      | none => alookup acc k := by
  induction entries generalizing acc with
  | nil => simp [mergeMeta, alookup]
  | cons e es ih =>
    rcases e with ⟨k0, v0⟩
    simp only [akeys, List.map_cons, List.nodup_cons] at hk
    have step : mergeMeta acc ((k0, v0) :: es) = mergeMeta (aset acc k0 (JVal.jstr v0)) es := by
      simp [mergeMeta]
    rw [step, ih (aset acc k0 (JVal.jstr v0)) hk.2]
    by_cases hkk : k = k0
    · subst hkk
      have : alookup es k = none :=
        alookup_eq_none_of_not_mem es k (by simpa [akeys] using hk.1)
      simp [this, alookup, alookup_aset_self]
    · have : alookup ((k0, v0) :: es) k = alookup es k := by
        simp [alookup, Ne.symm hkk]
      rw [this, alookup_aset_ne acc k0 k (JVal.jstr v0) hkk]

/-- C5: round trip of the tensor-container codec: writing a metadata map
`entries` into a valid container and reading it back yields `entries`
merged over the original metadata (entry keys overwrite, untouched keys
preserved), and the payload region — located using the original header
length — is unchanged byte for byte. -/
theorem tensor_container_roundtrip
    (b : Bytes) (entries : List (String × String)) (ms : List (String × JVal))
    (mm : List (String × JVal))
    (h8 : 8 + readU64 b ≤ b.length)
    (hp : parseJson ((b.drop 8).take (readU64 b)) = some (JVal.jobj ms))
    (hm : (alookup ms metaKeyStr = none ∧ mm = []) ∨
      alookup ms metaKeyStr = some (JVal.jobj mm))
    (hk : (akeys entries).Nodup)
    (hsz : (stringifyVal (JVal.jobj (aset ms metaKeyStr
      (JVal.jobj (mergeMeta mm entries))))).length < 2 ^ 64) :
    readAivmRawMetadata b = Except.ok mm ∧
    ∃ out, writeAivmRaw b entries = Except.ok out ∧
      out.drop (8 + readU64 out) = b.drop (8 + readU64 b) ∧
      readAivmRawMetadata out = Except.ok (mergeMeta mm entries) ∧
      ∀ k, alookup (mergeMeta mm entries) k =
        match alookup entries k with
        | some v => some (JVal.jstr v)
        | none => alookup mm k := by
  have hb8 : ¬ b.length < 8 := by omega
  have hbH : ¬ b.length < 8 + readU64 b := by omega
  constructor
  · rw [readAivmRawMetadata, if_neg hb8, if_neg hbH, hp]
    rcases hm with ⟨hnone, hmm⟩ | hsome
    · subst hmm
      simp [hnone]
    · simp [hsome]
  · set merged := mergeMeta mm entries with hmerged
    set ms2 := aset ms metaKeyStr (JVal.jobj merged) with hms2
    set nh := stringifyVal (JVal.jobj ms2) with hnh
    have hwrite : writeAivmRaw b entries =
        Except.ok (u64le nh.length ++ nh ++ b.drop (8 + readU64 b)) := by
      simp only [writeAivmRaw, if_neg hb8]
      rw [hp]
      rcases hm with ⟨hnone, hmm⟩ | hsome
      · subst hmm
        simp [if_neg hbH, hnone]
      · simp [if_neg hbH, hsome]
    refine ⟨u64le nh.length ++ nh ++ b.drop (8 + readU64 b), hwrite, ?_, ?_, ?_⟩
    · have hru : readU64 (u64le nh.length ++ (nh ++ b.drop (8 + readU64 b))) = nh.length := by
        rw [readU64_spec, Nat.mod_eq_of_lt hsz]
      rw [List.append_assoc, hru, ← List.append_assoc]
      have hlen : 8 + nh.length = (u64le nh.length ++ nh).length := by
        simp [u64le_length]
      rw [hlen, List.drop_left]
    · have hru : readU64 (u64le nh.length ++ (nh ++ b.drop (8 + readU64 b))) = nh.length := by
        rw [readU64_spec, Nat.mod_eq_of_lt hsz]
      rw [List.append_assoc, readAivmRawMetadata]
      rw [if_neg (by simp [u64le_length]; try omega), hru, if_neg (by simp [u64le_length]; try omega)]
      have hdrop : (u64le nh.length ++ (nh ++ b.drop (8 + readU64 b))).drop 8 =
          nh ++ b.drop (8 + readU64 b) := by
        have h8l : (8 : Nat) = (u64le nh.length).length := (u64le_length nh.length).symm
        rw [h8l, List.drop_left]
      rw [hdrop, List.take_left' rfl]
      rw [hnh, parseJson_stringifyVal]
      simp [hms2, alookup_aset_self]
    · intro k
      exact alookup_mergeMeta entries mm hk k

/-! ## Data model (schemas/aivm-manifest.ts, schemas/style-bert-vits2.ts) -/

/-- A voice sample attached to a style. -/
structure AivmVoiceSample where
  audio : String
  transcript : String
deriving DecidableEq

/-- A style of a speaker. -/
structure AivmStyle where
  name : String
  icon : Option String
  local_id : Int
  voice_samples : List AivmVoiceSample
deriving DecidableEq

/-- A speaker of a voice model. -/
structure AivmSpeaker where
  name : String
  icon : String
  supported_languages : List String
  uuid : String
  local_id : Int
  styles : List AivmStyle
deriving DecidableEq

/-- The AIVM manifest.  `model_architecture` and `model_format` are strings
validated against the closed enums of the schema (`z.enum`). -/
structure AivmManifest where
  manifest_version : String
  name : String
  description : String
  creators : List String
  license : Option String
  model_architecture : String
  model_format : String
  training_epochs : Option Int
  training_steps : Option Int
  uuid : String
  version : String
  speakers : List AivmSpeaker
deriving DecidableEq

/-- The closed architecture enum (`ModelArchitectureSchema`), which is also
the list the reconciliation engine and the validator test membership in. -/
def recognizedArchitectures : List String :=
  ["Style-Bert-VITS2", "Style-Bert-VITS2 (JP-Extra)"]

/-- The closed model-format enum (`ModelFormatSchema`). -/
def recognizedFormats : List String := ["Safetensors", "ONNX"]

/-- The load-bearing fields of `data` in the Style-Bert-VITS2
hyperparameters.  The remaining optional numeric fields of the schema are
opaque pass-through data that no modelled operation reads or writes. -/
structure SBV2Data where
  use_jp_extra : Option Bool
  training_files : Option String
  validation_files : Option String
  n_speakers : Int
  spk2id : List (String × Int)
  num_styles : Int
  style2id : List (String × Int)
deriving DecidableEq

/-- The load-bearing fields of the Style-Bert-VITS2 hyperparameters.  The
`train` and `model` sub-objects are opaque pass-through data here. -/
structure StyleBertVITS2HyperParameters where
  model_name : String
  version : String
  data : SBV2Data
deriving DecidableEq

/-- The metadata aggregate. -/
structure AivmMetadata where
  manifest : AivmManifest
  hyper_parameters : StyleBertVITS2HyperParameters
  style_vectors : Option Bytes
deriving DecidableEq

/-- Modelled from the spec: `DEFAULT_ICON_DATA_URL` from the constants
module `schemas/aivm-manifest-constants` (whose source is not present):
the default speaker icon, an embedded PNG data URL. -/
def DEFAULT_ICON_DATA_URL : String := "data:image/png;base64,iVBORw0KGgo="

/-- `DefaultAivmManifest` from schemas/aivm-manifest.ts. -/
def DefaultAivmManifest : AivmManifest :=
  { manifest_version := "1.0"
    name := "Model Name"
    description := ""
    creators := []
    license := none
    model_architecture := "Style-Bert-VITS2 (JP-Extra)"
    model_format := "Safetensors"
    training_epochs := none
    training_steps := none
    uuid := "00000000-0000-0000-0000-000000000000"
    version := "1.0.0"
    speakers := [{ name := "Speaker Name"
                   icon := DEFAULT_ICON_DATA_URL
                   supported_languages := ["ja"]
                   uuid := "00000000-0000-0000-0000-000000000000"
                   local_id := 0
                   styles := [{ name := "ノーマル"
                                icon := none
                                local_id := 0
                                voice_samples := [] }] }] }

/-- JS truthiness of the optional `use_jp_extra` flag
(`hyper_parameters.data.use_jp_extra ? A : B`; `undefined` is falsy). -/
def jsBoolOpt : Option Bool → Bool
  | some b => b
  | none => false

/-- Supported languages derived from the language-scope flag: Japanese only
for JP-Extra, otherwise Japanese, US English and Mandarin. -/
def supportedLangsFor (jp_extra : Bool) : List String :=
  if jp_extra then ["ja"] else ["ja", "en-US", "zh-CN"]

/-- Architecture string derived from the language-scope flag. -/
def archFromFlag (jp_extra : Bool) : String :=
  if jp_extra then "Style-Bert-VITS2 (JP-Extra)" else "Style-Bert-VITS2"

/-- The Neutral-normalization rule, as written inline at each style
creation site: a style literally named "Neutral" becomes "ノーマル" unless
some key of the same `style2id` map is already "ノーマル". -/
def renameNeutral (style2id : List (String × Int)) (style_name : String) : String :=
  if style_name = "Neutral" ∧ "ノーマル" ∉ akeys style2id then "ノーマル" else style_name

/-! ## Reconciliation engine (src/index.ts) -/

/-- Error kinds thrown by the reconciliation operations (generate /
update / sync).  The first group corresponds to the validation errors of
`loadAndValidateHyperParametersAndStyleVectors`; the `reconciliation*`
cases are the fatal post-condition errors of `updateAivmMetadata`. -/
inductive ReconcileErr where
  | unsupportedArchitecture (arch : String) : ReconcileErr
  | noSpeakers : ReconcileErr
  | noStyles : ReconcileErr
  | duplicateSpeakerId (id : Int) : ReconcileErr
  | duplicateStyleId (id : Int) : ReconcileErr
  | styleIdOutOfRange (name : String) (id : Int) : ReconcileErr
  | speakerIdInvalid (name : String) (id : Int) : ReconcileErr
  | styleVectorsMissing : ReconcileErr
  | reconciliationEmptySpeakers : ReconcileErr
  | reconciliationEmptyStyles (speaker_name : String) (speaker_id : Int) : ReconcileErr
deriving DecidableEq

/-- Structured form of the advisory warnings collected by
`updateAivmMetadata` (the exact message text is out of scope; each warning
carries the names/ids the message interpolates). -/
inductive UpdateWarning where
  | styleDropped (speaker_name style_name : String) (style_id : Int) : UpdateWarning
  | styleAdded (speaker_name style_name : String) (style_id : Int) : UpdateWarning
  | languagesChanged (speaker_name : String) (langs : List String) : UpdateWarning
  | speakerDropped (speaker_name : String) (speaker_id : Int) : UpdateWarning
  | speakerAdded (speaker_name : String) (speaker_id : Int) : UpdateWarning
deriving DecidableEq

/-- First duplicated id value in a name-to-id map, tracking the set of ids
seen so far (the duplicate-id checks of
`loadAndValidateHyperParametersAndStyleVectors`). -/
def firstDupId : List (String × Int) → List Int → Option Int
  | [], _ => none
  | (_, id) :: rest, seen =>
    if id ∈ seen then some id else firstDupId rest (id :: seen)

/-- `loadAndValidateHyperParametersAndStyleVectors` (src/index.ts): checks
on the already-parsed hyperparameters, in source order: recognized
architecture; `spk2id` nonempty; `style2id` nonempty; no duplicate speaker
ids; no duplicate style ids; style ids within `[0, 31]`; speaker ids
non-negative (the `Number.isInteger` half of that check cannot fail after
the integer schema); style vectors present.  The upstream JSON/Zod parse of
the hyperparameter file is a platform step; the function receives the
parsed value. -/
def loadAndValidateHP (model_architecture : String)
    (hp : StyleBertVITS2HyperParameters) (style_vectors : Option Bytes) :
    Except ReconcileErr (StyleBertVITS2HyperParameters × Bytes) :=
  if model_architecture ∈ recognizedArchitectures then
    if hp.data.spk2id = [] then Except.error ReconcileErr.noSpeakers
    else if hp.data.style2id = [] then Except.error ReconcileErr.noStyles
    else
      match firstDupId hp.data.spk2id [] with
      | some id => Except.error (ReconcileErr.duplicateSpeakerId id)
      | none =>
        match firstDupId hp.data.style2id [] with
        | some id => Except.error (ReconcileErr.duplicateStyleId id)
        | none =>
          match hp.data.style2id.find? (fun p => decide (p.2 < 0 ∨ 31 < p.2)) with
          | some p => Except.error (ReconcileErr.styleIdOutOfRange p.1 p.2)
          | none =>
            match hp.data.spk2id.find? (fun p => decide (p.2 < 0)) with
            | some p => Except.error (ReconcileErr.speakerIdInvalid p.1 p.2)
            | none =>
              match style_vectors with
              | none => Except.error ReconcileErr.styleVectorsMissing
              | some sv => Except.ok (hp, sv)
  else Except.error (ReconcileErr.unsupportedArchitecture model_architecture)

/-- `generateAivmMetadata` (src/index.ts).  The `uuid.v4()` calls are
modelled by explicitly passed fresh values: `model_uuid` for the manifest
and `speaker_uuid i` for the speaker at position `i`.

NOTE (faithful to the source): the speakers are built with
`Object.keys(spk2id).map((speaker_name, speaker_id) => ...)`, where
`speaker_id` is `Array.prototype.map`'s INDEX parameter — the position of
the key in iteration order — not the id value stored in the map; the same
holds for the styles.  `local_id` therefore receives the position, which
is what `List.mapIdx` expresses here. -/
def generateAivmMetadata (model_architecture : String)
    (hp0 : StyleBertVITS2HyperParameters) (style_vectors : Option Bytes)
    (model_uuid : String) (speaker_uuid : Nat → String) :
    Except ReconcileErr AivmMetadata :=
  match loadAndValidateHP model_architecture hp0 style_vectors with
  | Except.error e => Except.error e
  | Except.ok (hp, sv) =>
    let jp := jsBoolOpt hp.data.use_jp_extra
    let manifest : AivmManifest :=
      { DefaultAivmManifest with
        name := hp.model_name
        model_architecture := archFromFlag jp
        uuid := model_uuid
        speakers := (akeys hp.data.spk2id).mapIdx (fun speaker_id speaker_name =>
          { name := speaker_name
            icon := DEFAULT_ICON_DATA_URL
            supported_languages := supportedLangsFor jp
            uuid := speaker_uuid speaker_id
            local_id := (speaker_id : Int)
            styles := (akeys hp.data.style2id).mapIdx (fun style_id style_name =>
              { name := renameNeutral hp.data.style2id style_name
                icon := none
                local_id := (style_id : Int)
                voice_samples := [] }) }) }
    Except.ok { manifest := manifest, hyper_parameters := hp, style_vectors := some sv }

/-- Style reconciliation for one retained speaker (updateAivmMetadata):
an existing style whose `local_id` occurs among the values of the new
`style2id` is kept as-is (the whole object: name, icon, voice samples);
otherwise it is dropped with a warning.  Every new `style2id` entry whose
id matched no existing style of this speaker is appended as a fresh style
(Neutral-normalized name, no icon, empty samples) with a warning carrying
the raw style name.  `processed_new_style_local_ids` of the source
contains exactly the ids of the kept styles; since a candidate id is drawn
from the new map itself, membership there reduces to "some existing style
of this speaker has this id". -/
def reconcileStyles (new_style2id : List (String × Int)) (sp : AivmSpeaker) :
    List AivmStyle × List UpdateWarning :=
  let kept := sp.styles.filter (fun st => decide (st.local_id ∈ avalues new_style2id))
  let dropW := sp.styles.filterMap (fun st =>
    if st.local_id ∈ avalues new_style2id then none
    else some (UpdateWarning.styleDropped sp.name st.name st.local_id))
  let added := new_style2id.filterMap (fun p =>
    if sp.styles.any (fun st => decide (st.local_id = p.2)) then none
    else some ({ name := renameNeutral new_style2id p.1
                 icon := none
                 local_id := p.2
                 voice_samples := [] } : AivmStyle))
  let addW := new_style2id.filterMap (fun p =>
    if sp.styles.any (fun st => decide (st.local_id = p.2)) then none
    else some (UpdateWarning.styleAdded sp.name p.1 p.2))
  (kept ++ added, dropW ++ addW)

/-- Per-speaker update for a speaker whose `local_id` still occurs in the
new `spk2id`: styles reconciled, `supported_languages` recomputed from the
new language-scope flag with a warning when it changed; everything else
(uuid, icon, name, local_id) kept. -/
def updateExistingSpeaker (jp : Bool) (new_style2id : List (String × Int))
    (sp : AivmSpeaker) : AivmSpeaker × List UpdateWarning :=
  if sp.supported_languages = supportedLangsFor jp then
    ({ sp with styles := (reconcileStyles new_style2id sp).1 },
      (reconcileStyles new_style2id sp).2)
  else
    ({ sp with
         supported_languages := supportedLangsFor jp
         styles := (reconcileStyles new_style2id sp).1 },
      (reconcileStyles new_style2id sp).2 ++
        [UpdateWarning.languagesChanged sp.name (supportedLangsFor jp)])

/-- The full style list of a freshly added speaker: every entry of the new
`style2id`, Neutral-normalized, with the map's id value as `local_id`. -/
def buildNewSpeakerStyles (new_style2id : List (String × Int)) : List AivmStyle :=
  new_style2id.map (fun p =>
    { name := renameNeutral new_style2id p.1
      icon := none
      local_id := p.2
      voice_samples := [] })

/-- `updateAivmMetadata` (src/index.ts): validate the new hyperparameters
against the existing manifest's architecture, deep-copy the manifest,
reconcile speakers by `local_id` (retained speakers keep identity, dropped
ones warn, new `spk2id` ids append fresh speakers), then raise the fatal
reconciliation errors when the speaker list or any style list came out
empty.  `processed_new_speaker_local_ids` of the source contains exactly
the `local_id`s of existing speakers that matched; for an id drawn from
the new map, membership there reduces to "some existing speaker has this
id".  `speaker_uuid i` models `uuid.v4()` for the speaker added from the
map entry at position `i`. -/
def updatePhase1 (existing_metadata : AivmMetadata)
    (hp : StyleBertVITS2HyperParameters) :
    List (Option AivmSpeaker × List UpdateWarning) :=
  existing_metadata.manifest.speakers.map (fun sp =>
    if sp.local_id ∈ avalues hp.data.spk2id then
      ((some (updateExistingSpeaker (jsBoolOpt hp.data.use_jp_extra) hp.data.style2id sp).1),
        (updateExistingSpeaker (jsBoolOpt hp.data.use_jp_extra) hp.data.style2id sp).2)
    else
      ((none : Option AivmSpeaker),
        [UpdateWarning.speakerDropped sp.name sp.local_id]))

/-- Does some existing speaker carry this local id
(`processed_new_speaker_local_ids` membership for ids of the new map)? -/
def isMatchedSpeaker (existing_metadata : AivmMetadata) (id : Int) : Bool :=
  existing_metadata.manifest.speakers.any (fun sp => decide (sp.local_id = id))

/-- Phase 2 of update: speakers freshly added from the new `spk2id`. -/
def updateNewSpeakers (existing_metadata : AivmMetadata)
    (hp : StyleBertVITS2HyperParameters) (speaker_uuid : Nat → String) :
    List AivmSpeaker :=
  (hp.data.spk2id.mapIdx (fun i p =>
    if isMatchedSpeaker existing_metadata p.2 then (none : Option AivmSpeaker)
    else some { name := p.1
                icon := DEFAULT_ICON_DATA_URL
                supported_languages := supportedLangsFor (jsBoolOpt hp.data.use_jp_extra)
                uuid := speaker_uuid i
                local_id := p.2
                styles := buildNewSpeakerStyles hp.data.style2id })).filterMap id

/-- The reconciled speaker list: retained speakers first, then additions. -/
def updatedSpeakersOf (existing_metadata : AivmMetadata)
    (hp : StyleBertVITS2HyperParameters) (speaker_uuid : Nat → String) :
    List AivmSpeaker :=
  (updatePhase1 existing_metadata hp).filterMap Prod.fst ++
    updateNewSpeakers existing_metadata hp speaker_uuid

/-- The ordered warning list: per-speaker warnings of phase 1 in original
order, then the speaker-addition warnings in new-map order. -/
def updateWarningsOf (existing_metadata : AivmMetadata)
    (hp : StyleBertVITS2HyperParameters) : List UpdateWarning :=
  ((updatePhase1 existing_metadata hp).map Prod.snd).flatten ++
    hp.data.spk2id.filterMap (fun p =>
      if isMatchedSpeaker existing_metadata p.2 then none
      else some (UpdateWarning.speakerAdded p.1 p.2))

def updateAivmMetadataCompute (existing_metadata : AivmMetadata)
    (hp0 : StyleBertVITS2HyperParameters) (style_vectors : Option Bytes)
    (speaker_uuid : Nat → String) :
    Except ReconcileErr (AivmMetadata × List UpdateWarning) :=
  match loadAndValidateHP existing_metadata.manifest.model_architecture hp0 style_vectors with
  | Except.error e => Except.error e
  | Except.ok (hp, sv) =>
    if updatedSpeakersOf existing_metadata hp speaker_uuid = [] then
      Except.error ReconcileErr.reconciliationEmptySpeakers
    else
      match (updatedSpeakersOf existing_metadata hp speaker_uuid).find?
          (fun sp => sp.styles.isEmpty) with
      | some sp => Except.error (ReconcileErr.reconciliationEmptyStyles sp.name sp.local_id)
      | none =>
        Except.ok
          ({ manifest := { existing_metadata.manifest with
               model_architecture := archFromFlag (jsBoolOpt hp.data.use_jp_extra)
               speakers := updatedSpeakersOf existing_metadata hp speaker_uuid }
             hyper_parameters := hp
             style_vectors := some sv },
            updateWarningsOf existing_metadata hp)

/-- `updateAivmMetadata` with the mutation state made explicit: the first
component is the final state of the `existing_metadata` argument.  Every
assignment in the source targets the `structuredClone` of the existing
manifest or freshly created objects — never `existing_metadata` itself —
so the final state is the input, on the error paths as well. -/
def updateAivmMetadataFull (existing_metadata : AivmMetadata)
    (hp0 : StyleBertVITS2HyperParameters) (style_vectors : Option Bytes)
    (speaker_uuid : Nat → String) :
    AivmMetadata × Except ReconcileErr (AivmMetadata × List UpdateWarning) :=
  (existing_metadata, updateAivmMetadataCompute existing_metadata hp0 style_vectors speaker_uuid)

/-! ## sync (`applyAivmManifestToHyperParameters`) and the codec writes -/

/-- Error thrown by sync. -/
inductive SyncErr where
  | styleVectorsMissing : SyncErr
deriving DecidableEq

/-- One rebuild pass of `applyAivmManifestToHyperParameters`: for each
manifest item `(name, local_id)` in order, look for the FIRST key of the
current map carrying that `local_id`
(`Object.keys(map).find(key => map[key] === local_id)`); when found — and
the found key is truthy, i.e. not the empty string (`if (old_key)`) —
bind `name ↦ local_id` into the object being built. -/
def rebuildIdMap (items : List (String × Int)) (old : List (String × Int)) :
    List (String × Int) :=
  items.foldl (fun acc p =>
    match old.find? (fun q => decide (q.2 = p.2)) with
    | some q => if q.1 = "" then acc else aset acc p.1 p.2
    | none => acc) []

/-- `applyAivmManifestToHyperParameters` (src/index.ts), as a state
transform returning the final state of the aggregate: for a recognized
architecture it requires style vectors, then projects the manifest onto
the hyperparameters: model name, placeholder training/validation files,
`spk2id` rebuilt from the manifest speakers against the current `spk2id`,
`n_speakers`, `style2id` rebuilt from all styles of all speakers against
the current `style2id`, `num_styles`.  For an unrecognized architecture it
does nothing. -/
def applyAivmManifestToHyperParameters (md : AivmMetadata) :
    Except SyncErr AivmMetadata :=
  if md.manifest.model_architecture ∈ recognizedArchitectures then
    match md.style_vectors with
    | none => Except.error SyncErr.styleVectorsMissing
    | some _ =>
      let hp := md.hyper_parameters
      let speakersKV := md.manifest.speakers.map (fun sp => (sp.name, sp.local_id))
      let new_spk2id := rebuildIdMap speakersKV hp.data.spk2id
      let stylesKV :=
        (md.manifest.speakers.map (fun sp =>
          sp.styles.map (fun st => (st.name, st.local_id)))).flatten
      let new_style2id := rebuildIdMap stylesKV hp.data.style2id
      Except.ok { md with hyper_parameters :=
        { hp with
          model_name := md.manifest.name
          data := { hp.data with
            training_files := some "train.list"
            validation_files := some "val.list"
            spk2id := new_spk2id
            n_speakers := (new_spk2id.length : Int)
            style2id := new_style2id
            num_styles := (new_style2id.length : Int) } } }
  else Except.ok md

/-- Total post-state of the sync mutation: the only throw (missing style
vectors) happens before any assignment, so on the error path the aggregate
is unchanged. -/
def syncPost (md : AivmMetadata) : AivmMetadata :=
  match applyAivmManifestToHyperParameters md with
  | Except.ok md2 => md2
  | Except.error _ => md

/-- Final state of the `aivm_metadata` argument of `writeAivmMetadata`
(the AIVM / tensor-container write): the function first assigns
`manifest.model_format = 'Safetensors'` on the argument, then applies the
in-place sync; nothing downstream (serialization, validation, byte work)
writes to the aggregate again, also on the error paths. -/
def writeAivmMetadataPost (md : AivmMetadata) : AivmMetadata :=
  syncPost { md with manifest := { md.manifest with model_format := "Safetensors" } }

/-- Final state of the `aivm_metadata` argument of `writeAivmxMetadata`
(the AIVMX / graph-container write): same shape with `'ONNX'`. -/
def writeAivmxMetadataPost (md : AivmMetadata) : AivmMetadata :=
  syncPost { md with manifest := { md.manifest with model_format := "ONNX" } }

/-! ## Schema validator (`validateAivmMetadata`)

The Zod schemas are modelled as executable field-by-field checkers over
the `JVal` produced by the JSON reader.  The string-format regexes of the
schema (uuid, semver, BCP-47 language tag, data URLs) are library
primitives modelled as shape checkers covering their essential structure;
no claim depends on their fine-grained acceptance. -/

/-- The JSON value as a string, when it is one. -/
def jStr : JVal → Option String
  | JVal.jstr s => some s
  | _ => none

/-- The JSON value as an integer, when it is one. -/
def jInt : JVal → Option Int
  | JVal.jnum n => some n
  | _ => none

/-- The JSON value as a boolean, when it is one. -/
def jBool : JVal → Option Bool
  | JVal.jbool b => some b
  | _ => none

/-- The JSON value as an array, when it is one. -/
def jArr : JVal → Option (List JVal)
  | JVal.jarr l => some l
  | _ => none

/-- The JSON value as an object, when it is one. -/
def jObj : JVal → Option (List (String × JVal))
  | JVal.jobj fs => some fs
  | _ => none

/-- Hexadecimal digit. -/
def isHexCh (c : Char) : Bool :=
  isDigitCh c || (97 ≤ c.toNat && c.toNat ≤ 102) || (65 ≤ c.toNat && c.toNat ≤ 70)

/-- Split a character list at every occurrence of a separator (the
splitting behaviour of `String.split` on a single-character predicate). -/
def splitCh (sep : Char) : List Char → List (List Char)
  | [] => [[]]
  | c :: cs =>
    if c = sep then [] :: splitCh sep cs
    else
      match splitCh sep cs with
      | [] => [[c]]
      | g :: gs => (c :: g) :: gs

/-- Shape checker for `z.string().uuid()`: 8-4-4-4-12 hex groups. -/
def isUuidString (s : String) : Bool :=
  match splitCh '-' s.data with
  | [a, b, c, d, e] =>
    a.length = 8 && b.length = 4 && c.length = 4 && d.length = 4 && e.length = 12 &&
    (a.all isHexCh && b.all isHexCh && c.all isHexCh &&
     d.all isHexCh && e.all isHexCh)
  | _ => false

/-- Numeric semver component: digits, no leading zero (except "0"). -/
def isVersionPart (s : List Char) : Bool :=
  s ≠ [] && s.all isDigitCh && (s = ['0'] || s.head? ≠ some '0')

/-- Shape checker for the semver regex of the schema: `X.Y.Z` core with an
optional `-prerelease` / `+build` tail (tail contents not re-validated). -/
def isSemverString (s : String) : Bool :=
  let core := s.data.takeWhile (fun c => c ≠ '-' && c ≠ '+')
  let tail0 := s.data.drop core.length
  (match core.splitOn '.' with
   | [x, y, z] => isVersionPart x && isVersionPart y && isVersionPart z
   | _ => false) &&
  (tail0 = [] || tail0.head? = some '-' || tail0.head? = some '+')

/-- Base64 alphabet (with padding), as in the data-URL regexes. -/
def isB64Ch (c : Char) : Bool :=
  isDigitCh c || (65 ≤ c.toNat && c.toNat ≤ 90) || (97 ≤ c.toNat && c.toNat ≤ 122) ||
  c = '+' || c = '/' || c = '='

/-- Shape checker for the icon data-URL regex
(`data:image/(jpeg|png);base64,` + base64 payload). -/
def isImageDataUrl (s : String) : Bool :=
  (s.startsWith "data:image/jpeg;base64," &&
    (s.drop 23).length ≠ 0 && (s.drop 23).data.all isB64Ch) ||
  (s.startsWith "data:image/png;base64," &&
    (s.drop 22).length ≠ 0 && (s.drop 22).data.all isB64Ch)

/-- Shape checker for the voice-sample audio data-URL regex. -/
def isAudioDataUrl (s : String) : Bool :=
  (s.startsWith "data:audio/wav;base64," &&
    (s.drop 22).length ≠ 0 && (s.drop 22).data.all isB64Ch) ||
  (s.startsWith "data:audio/mp4;base64," &&
    (s.drop 22).length ≠ 0 && (s.drop 22).data.all isB64Ch)

/-- Shape checker for the BCP-47 language-tag regex: a 2-3 letter lowercase
primary subtag, optionally followed by alphanumeric subtags. -/
def isLangTag (s : String) : Bool :=
  match splitCh '-' s.data with
  | [] => false
  | prim :: rest =>
    (2 ≤ prim.length && prim.length ≤ 3 &&
      prim.all (fun c => 97 ≤ c.toNat && c.toNat ≤ 122)) &&
    rest.all (fun t => t.length ≠ 0 &&
      t.all (fun c => isDigitCh c || (65 ≤ c.toNat && c.toNat ≤ 90) ||
        (97 ≤ c.toNat && c.toNat ≤ 122)))

/-- Zod parse of one voice sample. -/
def parseVoiceSampleJson (j : JVal) : Option AivmVoiceSample := do
  let ms ← jObj j
  let audio ← jStr =<< alookup ms "audio"
  guard (isAudioDataUrl audio = true)
  let transcript ← jStr =<< alookup ms "transcript"
  guard (1 ≤ transcript.length)
  pure { audio := audio, transcript := transcript }

/-- Zod parse of one style. -/
def parseStyleJson (j : JVal) : Option AivmStyle := do
  let ms ← jObj j
  let name ← jStr =<< alookup ms "name"
  guard (1 ≤ name.length ∧ name.length ≤ 20)
  let icon ←
    match alookup ms "icon" with
    | none => pure (none : Option String)
    | some JVal.jnull => pure (none : Option String)
    | some v => do
      let s ← jStr v
      guard (isImageDataUrl s = true)
      pure (some s)
  let lid ← jInt =<< alookup ms "local_id"
  guard (0 ≤ lid ∧ lid ≤ 31)
  let samples ←
    match alookup ms "voice_samples" with
    | none => pure ([] : List AivmVoiceSample)
    | some v => do
      let l ← jArr v
      l.mapM parseVoiceSampleJson
  pure { name := name, icon := icon, local_id := lid, voice_samples := samples }

/-- Zod parse of one speaker. -/
def parseSpeakerJson (j : JVal) : Option AivmSpeaker := do
  let ms ← jObj j
  let name ← jStr =<< alookup ms "name"
  guard (1 ≤ name.length ∧ name.length ≤ 80)
  let icon ← jStr =<< alookup ms "icon"
  guard (isImageDataUrl icon = true)
  let langsJ ← jArr =<< alookup ms "supported_languages"
  let langs ← langsJ.mapM jStr
  guard (langs.all isLangTag = true)
  let uuid ← jStr =<< alookup ms "uuid"
  guard (isUuidString uuid = true)
  let lid ← jInt =<< alookup ms "local_id"
  guard (0 ≤ lid)
  let stylesJ ← jArr =<< alookup ms "styles"
  let styles ← stylesJ.mapM parseStyleJson
  pure { name := name, icon := icon, supported_languages := langs, uuid := uuid,
         local_id := lid, styles := styles }

/-- `AivmManifestSchema.parse` over a JSON value: required fields must be
present and conform; defaulted fields fall back when missing.  A
successful parse in particular forces `model_architecture` into the closed
enum `recognizedArchitectures`. -/
def parseManifestJson (j : JVal) : Option AivmManifest := do
  let ms ← jObj j
  let mv ← jStr =<< alookup ms "manifest_version"
  guard (mv = "1.0")
  let name ← jStr =<< alookup ms "name"
  guard (1 ≤ name.length ∧ name.length ≤ 80)
  let description ←
    match alookup ms "description" with
    | none => pure ""
    | some v => do
      let s ← jStr v
      guard (s.length ≤ 140)
      pure s
  let creators ←
    match alookup ms "creators" with
    | none => pure ([] : List String)
    | some v => do
      let l ← jArr v
      let ss ← l.mapM jStr
      guard (ss.all (fun s => 1 ≤ s.length ∧ s.length ≤ 255) = true)
      pure ss
  let license ←
    match alookup ms "license" with
    | none => pure (none : Option String)
    | some JVal.jnull => pure (none : Option String)
    | some v => do
      let s ← jStr v
      guard (1 ≤ s.length)
      pure (some s)
  let arch ← jStr =<< alookup ms "model_architecture"
  guard (arch ∈ recognizedArchitectures)
  let fmt ← jStr =<< alookup ms "model_format"
  guard (fmt ∈ recognizedFormats)
  let epochs ←
    match alookup ms "training_epochs" with
    | none => pure (none : Option Int)
    | some JVal.jnull => pure (none : Option Int)
    | some v => do
      let n ← jInt v
      guard (0 ≤ n)
      pure (some n)
  let steps ←
    match alookup ms "training_steps" with
    | none => pure (none : Option Int)
    | some JVal.jnull => pure (none : Option Int)
    | some v => do
      let n ← jInt v
      guard (0 ≤ n)
      pure (some n)
  let uuid ← jStr =<< alookup ms "uuid"
  guard (isUuidString uuid = true)
  let version ← jStr =<< alookup ms "version"
  guard (isSemverString version = true)
  let speakersJ ← jArr =<< alookup ms "speakers"
  let speakers ← speakersJ.mapM parseSpeakerJson
  pure { manifest_version := mv, name := name, description := description,
         creators := creators, license := license, model_architecture := arch,
         model_format := fmt, training_epochs := epochs, training_steps := steps,
         uuid := uuid, version := version, speakers := speakers }

/-- `StyleBertVITS2HyperParametersSchema.parse` over a JSON value,
extracting the load-bearing fields; `train` and `model` must be present
objects (their optional members are opaque here). -/
def parseHyperJson (j : JVal) : Option StyleBertVITS2HyperParameters := do
  let ms ← jObj j
  let model_name ← jStr =<< alookup ms "model_name"
  let version ← jStr =<< alookup ms "version"
  let _train ← jObj =<< alookup ms "train"
  let dataJ ← jObj =<< alookup ms "data"
  let _model ← jObj =<< alookup ms "model"
  let jp ←
    match alookup dataJ "use_jp_extra" with
    | none => pure (none : Option Bool)
    | some v => do
      let b ← jBool v
      pure (some b)
  let tf ←
    match alookup dataJ "training_files" with
    | none => pure (none : Option String)
    | some v => do
      let s ← jStr v
      pure (some s)
  let vf ←
    match alookup dataJ "validation_files" with
    | none => pure (none : Option String)
    | some v => do
      let s ← jStr v
      pure (some s)
  let nspk ← jInt =<< alookup dataJ "n_speakers"
  let spk2idJ ← jObj =<< alookup dataJ "spk2id"
  let spk2id ← spk2idJ.mapM (fun p => (jInt p.2).map (fun n => (p.1, n)))
  let nsty ← jInt =<< alookup dataJ "num_styles"
  let style2idJ ← jObj =<< alookup dataJ "style2id"
  let style2id ← style2idJ.mapM (fun p => (jInt p.2).map (fun n => (p.1, n)))
  pure { model_name := model_name, version := version,
         data := { use_jp_extra := jp, training_files := tf, validation_files := vf,
                   n_speakers := nspk, spk2id := spk2id,
                   num_styles := nsty, style2id := style2id } }

/-- Six-bit value of a base64 character. -/
def b64Val (c : Char) : Option Nat :=
  if 65 ≤ c.toNat ∧ c.toNat ≤ 90 then some (c.toNat - 65)
  else if 97 ≤ c.toNat ∧ c.toNat ≤ 122 then some (c.toNat - 71)
  else if isDigitCh c then some (c.toNat + 4)
  else if c = '+' then some 62
  else if c = '/' then some 63
  else none

/-- Regroup decoded 6-bit values into bytes. -/
def b64Quads : List Nat → Option Bytes
  | [] => some []
  | [_] => none
  | [a, b] => some [Char.ofNat ((a * 4 + b / 16) % 256)]
  | [a, b, c] =>
    some [Char.ofNat ((a * 4 + b / 16) % 256), Char.ofNat ((b % 16 * 16 + c / 4) % 256)]
  | a :: b :: c :: d :: rest =>
    (b64Quads rest).map (fun t =>
      Char.ofNat ((a * 4 + b / 16) % 256) :: Char.ofNat ((b % 16 * 16 + c / 4) % 256) ::
        Char.ofNat ((c % 4 * 64 + d) % 256) :: t)

/-- Model of the library base64 decoder (`Base64.toUint8Array`). -/
def base64Decode (s : String) : Option Bytes := do
  let core := s.data.takeWhile (fun c => c ≠ '=')
  let pad := s.data.drop core.length
  guard (pad.all (fun c => c = '=') ∧ pad.length ≤ 2)
  let vals ← core.mapM b64Val
  b64Quads vals

/-- Error kinds of `validateAivmMetadata`, following the spec's taxonomy:
the three `ValidationError` stages, the missing-key variants, and the
`UnsupportedArchitectureError` kind (which `validateAivmMetadata` can in
fact never surface — see the C4 theorems). -/
inductive ValidateErr where
  | manifestMissing : ValidateErr
  | manifestInvalid : ValidateErr
  | hyperParametersMissing : ValidateErr
  | hyperParametersInvalid : ValidateErr
  | styleVectorsInvalid : ValidateErr
  | unsupportedArchitecture : ValidateErr
deriving DecidableEq

/-- `validateAivmMetadata` (src/index.ts): requires `aivm_manifest`
(missing or empty-string value is falsy), parses and validates it, then
requires and parses `aivm_hyper_parameters` — the whole hyperparameter
stage sits in one try/catch whose handler rethrows the
hyper_parameters-stage validation error, so the internal
unsupported-architecture throw is converted too — and finally base64
decodes `aivm_style_vectors` when present. -/
def validateAivmMetadata (raw : List (String × String)) :
    Except ValidateErr AivmMetadata :=
  match alookup raw "aivm_manifest" with
  | none => Except.error ValidateErr.manifestMissing
  | some mstr =>
    if mstr = "" then Except.error ValidateErr.manifestMissing
    else
      match (parseJson mstr.data).bind parseManifestJson with
      | none => Except.error ValidateErr.manifestInvalid
      | some manifest =>
        match alookup raw "aivm_hyper_parameters" with
        | none => Except.error ValidateErr.hyperParametersMissing
        | some hstr =>
          if hstr = "" then Except.error ValidateErr.hyperParametersMissing
          else
            match (if manifest.model_architecture ∈ recognizedArchitectures then
                match (parseJson hstr.data).bind parseHyperJson with
                | none => Except.error ValidateErr.hyperParametersInvalid
                | some hp => Except.ok hp
              else
                (Except.error ValidateErr.unsupportedArchitecture :
                  Except ValidateErr StyleBertVITS2HyperParameters)) with
            | Except.error _ => Except.error ValidateErr.hyperParametersInvalid
            | Except.ok hp =>
              match alookup raw "aivm_style_vectors" with
              | none =>
                Except.ok { manifest := manifest, hyper_parameters := hp,
                            style_vectors := none }
              | some sstr =>
                if sstr = "" then
                  Except.ok { manifest := manifest, hyper_parameters := hp,
                              style_vectors := none }
                else
                  match base64Decode sstr with
                  | none => Except.error ValidateErr.styleVectorsInvalid
                  | some bytes =>
                    Except.ok { manifest := manifest, hyper_parameters := hp,
                                style_vectors := some bytes }

/-! ## Concrete fixtures used by the claim theorems -/

/-- Hyperparameters with one speaker "Alice" carrying id 1 and styles whose
ids differ from their positions. -/
def hpIdx : StyleBertVITS2HyperParameters :=
  { model_name := "M"
    version := "2.4.1"
    data := { use_jp_extra := some false
              training_files := some "raw/train.list"
              validation_files := some "raw/val.list"
              n_speakers := 1
              spk2id := [("Alice", 1)]
              num_styles := 2
              style2id := [("A", 0), ("B", 2)] } }

/-- Hyperparameters of scenario A (`spk2id={"Alice":0}`,
`style2id={"Neutral":0}`). -/
def hpScenA : StyleBertVITS2HyperParameters :=
  { model_name := "M"
    version := "2.4.1"
    data := { use_jp_extra := some false
              training_files := none
              validation_files := none
              n_speakers := 1
              spk2id := [("Alice", 0)]
              num_styles := 1
              style2id := [("Neutral", 0)] } }

/-- Hyperparameters of scenario B (`style2id={"Neutral":0,"ノーマル":1}`). -/
def hpScenB : StyleBertVITS2HyperParameters :=
  { hpScenA with data := { hpScenA.data with
      num_styles := 2
      style2id := [("Neutral", 0), ("ノーマル", 1)] } }

/-- An existing speaker "Alice" (id 0) with styles "ノーマル" (id 0, with
an icon and a voice sample) and "Whisper" (id 5). -/
def aliceSpk : AivmSpeaker :=
  { name := "Alice"
    icon := "data:image/jpeg;base64,QQ=="
    supported_languages := ["ja", "en-US", "zh-CN"]
    uuid := "22222222-2222-2222-2222-222222222222"
    local_id := 0
    styles := [{ name := "ノーマル"
                 icon := some "data:image/png;base64,QkI="
                 local_id := 0
                 voice_samples := [{ audio := "data:audio/mp4;base64,QQ=="
                                     transcript := "hello" }] },
               { name := "Whisper"
                 icon := none
                 local_id := 5
                 voice_samples := [] }] }

/-- An existing aggregate around `aliceSpk`. -/
def mdEx : AivmMetadata :=
  { manifest :=
      { DefaultAivmManifest with
        name := "Alice Voice"
        model_architecture := "Style-Bert-VITS2"
        uuid := "11111111-1111-1111-1111-111111111111"
        speakers := [aliceSpk] }
    hyper_parameters := hpScenA
    style_vectors := some ['v'] }

/-! ## C1 -/

/-- C1: in `generate`, `Speaker.local_id` and `Style.local_id` receive the
POSITION of the entry in map iteration order (the index parameter of
`Array.prototype.map` over `Object.keys`), not the entry's id value: with
`spk2id={"Alice":1}` and `style2id={"A":0,"B":2}` the generated speaker
gets `local_id` 0 (the claim requires 1) and style "B" gets `local_id` 1
(the claim requires 2).  This evaluates the embedded `generate` at that
failing input. -/
theorem C1_generate_local_id_is_position_not_value :
    (generateAivmMetadata "Style-Bert-VITS2" hpIdx (some ['v']) "u0" (fun _ => "u1")).map
        (fun md => (md.manifest.speakers.map (fun sp => sp.local_id),
                    md.manifest.speakers.map (fun sp => sp.styles.map (fun st => st.local_id)))) =
      Except.ok ([0], [[0, 1]]) := by
  rfl

/-! ## C10 -/

/-- C10: `update` never mutates its `existing_metadata` argument — in the
state-passing embedding, the final state of the argument (the first
component of `updateAivmMetadataFull`) is the unchanged input, whether the
computation returns a result or throws: every assignment in the source
targets the `structuredClone` of the existing manifest or freshly created
objects. -/
theorem C10_update_leaves_existing_unchanged
    (existing_metadata : AivmMetadata) (hp0 : StyleBertVITS2HyperParameters)
    (style_vectors : Option Bytes) (speaker_uuid : Nat → String) :
    (updateAivmMetadataFull existing_metadata hp0 style_vectors speaker_uuid).1 =
      existing_metadata := rfl

/-! ## C3 -/

/-- C3 counterexample: `writeAivmMetadata` does NOT leave the aggregate
passed to it unmodified — on an aggregate whose `model_format` is "ONNX"
the write (before any byte work) sets `model_format` to "Safetensors" and
applies the in-place sync, so the final state differs from the input. -/
theorem C3_cex_write_mutates_aggregate :
    writeAivmMetadataPost { mdEx with manifest := { mdEx.manifest with model_format := "ONNX" } } ≠
        { mdEx with manifest := { mdEx.manifest with model_format := "ONNX" } } ∧
      (writeAivmMetadataPost { mdEx with manifest := { mdEx.manifest with model_format := "ONNX" } }).manifest.model_format = "Safetensors" := by
  constructor
  · decide
  · rfl


/-- On success, sync rewrites only the hyperparameters: manifest and style
vectors of the aggregate are unchanged. -/
theorem applySync_ok_frame (m md2 : AivmMetadata)
    (h : applyAivmManifestToHyperParameters m = Except.ok md2) :
    md2.manifest = m.manifest ∧ md2.style_vectors = m.style_vectors := by
  unfold applyAivmManifestToHyperParameters at h
  split at h
  · split at h
    · exact absurd h (by simp)
    · injection h with h2
      subst h2
      exact ⟨rfl, rfl⟩
  · injection h with h2
    subst h2
    exact ⟨rfl, rfl⟩

/-- The sync post-state keeps the manifest. -/
theorem syncPost_manifest (m : AivmMetadata) : (syncPost m).manifest = m.manifest := by
  unfold syncPost
  rcases h : applyAivmManifestToHyperParameters m with e | md2
  · rfl
  · exact (applySync_ok_frame m md2 h).1

/-- The sync post-state keeps the style vectors. -/
theorem syncPost_style_vectors (m : AivmMetadata) :
    (syncPost m).style_vectors = m.style_vectors := by
  unfold syncPost
  rcases h : applyAivmManifestToHyperParameters m with e | md2
  · rfl
  · exact (applySync_ok_frame m md2 h).2

/-- C3 amended: each codec write operation mutates the aggregate in place:
it sets `manifest.model_format` to its container's format and applies the
in-place sync to the hyperparameters; the manifest is otherwise unchanged
and the style vectors are untouched.  `sync` is therefore not the only
mutating operation — the codec writes mutate the aggregate as well (by
setting the format and invoking sync). -/
theorem C3_codec_writes_mutate_by_format_and_sync (md : AivmMetadata) :
    (writeAivmMetadataPost md).manifest = { md.manifest with model_format := "Safetensors" } ∧
    (writeAivmxMetadataPost md).manifest = { md.manifest with model_format := "ONNX" } ∧
    (writeAivmMetadataPost md).style_vectors = md.style_vectors ∧
    (writeAivmxMetadataPost md).style_vectors = md.style_vectors ∧
    writeAivmMetadataPost md =
      syncPost { md with manifest := { md.manifest with model_format := "Safetensors" } } ∧
    writeAivmxMetadataPost md =
      syncPost { md with manifest := { md.manifest with model_format := "ONNX" } } := by
  refine ⟨?_, ?_, ?_, ?_, rfl, rfl⟩
  · rw [writeAivmMetadataPost, syncPost_manifest]
  · rw [writeAivmxMetadataPost, syncPost_manifest]
  · rw [writeAivmMetadataPost, syncPost_style_vectors]
  · rw [writeAivmxMetadataPost, syncPost_style_vectors]

/-- Successful hyperparameter validation returns the parsed value it was
given, together with the (necessarily present) style vectors. -/
theorem loadAndValidateHP_ok (a : String) (hp : StyleBertVITS2HyperParameters)
    (sv : Option Bytes) (p : StyleBertVITS2HyperParameters × Bytes)
    (h : loadAndValidateHP a hp sv = Except.ok p) : p.1 = hp ∧ sv = some p.2 := by
  unfold loadAndValidateHP at h
  split at h
  · split at h
    · simp at h
    · split at h
      · simp at h
      · split at h
        · simp at h
        · split at h
          · simp at h
          · split at h
            · simp at h
            · split at h
              · simp at h
              · split at h
                · simp at h
                · next b =>
                  injection h with h2
                  rw [← h2]
                  exact ⟨rfl, rfl⟩
  · simp at h

/-! ## C8 -/

/-- C8: whenever `update` returns (instead of throwing), the resulting
manifest has a nonempty speaker list and every speaker a nonempty style
list — the reconciliation postconditions guard the return, raising the
fatal `ReconcileErr.reconciliationEmptySpeakers` /
`reconciliationEmptyStyles` errors (not warnings) otherwise. -/
theorem C8_update_postcondition (existing_metadata : AivmMetadata)
    (hp0 : StyleBertVITS2HyperParameters) (sv : Option Bytes) (su : Nat → String)
    (md : AivmMetadata) (ws : List UpdateWarning)
    (h : updateAivmMetadataCompute existing_metadata hp0 sv su = Except.ok (md, ws)) :
    md.manifest.speakers ≠ [] ∧ ∀ sp ∈ md.manifest.speakers, sp.styles ≠ [] := by
  unfold updateAivmMetadataCompute at h
  split at h
  · simp at h
  · next hp sv2 _heq =>
    split at h
    · simp at h
    · next hne =>
      split at h
      · simp at h
      · next hfind =>
        injection h with h2
        injection h2 with hmd _hws
        subst hmd
        refine ⟨hne, ?_⟩
        intro sp hsp
        have hne2 := List.find?_eq_none.mp hfind sp hsp
        simpa [List.isEmpty_iff] using hne2

/-- First component of the successful update run on the fixtures (used to
instantiate `C8_update_postcondition`). -/
def mdC8 : AivmMetadata :=
  match updateAivmMetadataCompute mdEx hpScenB (some ['w']) (fun _ => "u") with
  | Except.ok p => p.1
  | Except.error _ => mdEx

/-- Warning list of the successful update run on the fixtures. -/
def wsC8 : List UpdateWarning :=
  match updateAivmMetadataCompute mdEx hpScenB (some ['w']) (fun _ => "u") with
  | Except.ok p => p.2
  | Except.error _ => []

theorem C8_update_postcondition_witness :
    mdC8.manifest.speakers ≠ [] ∧ ∀ sp ∈ mdC8.manifest.speakers, sp.styles ≠ [] :=
  C8_update_postcondition mdEx hpScenB (some ['w']) (fun _ => "u") mdC8 wsC8 (by rfl)

/-! ## C7 -/

/-- Hyperparameters exercising the Neutral rule at the style-addition site
of `update`: the new map has keys "X" and "Neutral" and no "ノーマル". -/
def hpC7 : StyleBertVITS2HyperParameters :=
  { hpScenA with data := { hpScenA.data with
      num_styles := 2
      style2id := [("X", 0), ("Neutral", 7)] } }

/-- C7: the Neutral-normalization rule, at every creation site (the
`generate` style build, and the added-style paths of `update`, all of
which evaluate `renameNeutral` on the new `style2id` map): a style
literally named "Neutral" is renamed to "ノーマル" exactly when no key of
the same map is already "ノーマル".  Scenario A: `style2id={"Neutral":0}`
generates the sole style renamed; scenario B:
`style2id={"Neutral":0,"ノーマル":1}` keeps both original names; and an
`update` run that adds a style named "Neutral" adds it renamed. -/
theorem C7_neutral_normalization :
    (∀ style2id : List (String × Int),
        renameNeutral style2id "Neutral" = "ノーマル" ↔ "ノーマル" ∉ akeys style2id) ∧
    (∀ (style2id : List (String × Int)) (name : String), name ≠ "Neutral" →
        renameNeutral style2id name = name) ∧
    (generateAivmMetadata "Style-Bert-VITS2" hpScenA (some ['v']) "u0" (fun _ => "u1")).map
        (fun md => md.manifest.speakers.map (fun sp => sp.styles.map (fun st => st.name))) =
      Except.ok [["ノーマル"]] ∧
    (generateAivmMetadata "Style-Bert-VITS2" hpScenB (some ['v']) "u0" (fun _ => "u1")).map
        (fun md => md.manifest.speakers.map (fun sp => sp.styles.map (fun st => st.name))) =
      Except.ok [["Neutral", "ノーマル"]] ∧
    (updateAivmMetadataCompute mdEx hpC7 (some ['w']) (fun _ => "u")).map
        (fun p => p.1.manifest.speakers.map (fun sp => sp.styles.map (fun st => st.name))) =
      Except.ok [["ノーマル", "ノーマル"]] := by
  refine ⟨?_, ?_, rfl, rfl, rfl⟩
  · intro style2id
    unfold renameNeutral
    by_cases hm : "ノーマル" ∈ akeys style2id
    · rw [if_neg (by simp [hm])]
      constructor
      · intro he
        exact absurd he (by decide)
      · intro hn
        exact absurd hm hn
    · rw [if_pos ⟨rfl, hm⟩]
      exact ⟨fun _ => hm, fun _ => rfl⟩
  · intro style2id name hne
    unfold renameNeutral
    rw [if_neg (by simp [hne])]

/-! ## C2 -/

/-- A retained speaker keeps uuid, name, icon, and local id; its style
list is the style reconciliation result. -/
theorem updateExistingSpeaker_fields (jp : Bool) (s2 : List (String × Int))
    (sp : AivmSpeaker) :
    (updateExistingSpeaker jp s2 sp).1.uuid = sp.uuid ∧
    (updateExistingSpeaker jp s2 sp).1.name = sp.name ∧
    (updateExistingSpeaker jp s2 sp).1.icon = sp.icon ∧
    (updateExistingSpeaker jp s2 sp).1.local_id = sp.local_id ∧
    (updateExistingSpeaker jp s2 sp).1.styles = (reconcileStyles s2 sp).1 := by
  unfold updateExistingSpeaker
  split <;> exact ⟨rfl, rfl, rfl, rfl, rfl⟩

/-- The per-speaker warnings contain all style-reconciliation warnings. -/
theorem updateExistingSpeaker_warnings_sub (jp : Bool) (s2 : List (String × Int))
    (sp : AivmSpeaker) (w : UpdateWarning) (hw : w ∈ (reconcileStyles s2 sp).2) :
    w ∈ (updateExistingSpeaker jp s2 sp).2 := by
  unfold updateExistingSpeaker
  split
  · exact hw
  · exact List.mem_append_left _ hw

/-- C2: in `update`, for every existing speaker retained by `local_id`,
style reconciliation matches styles by `local_id` against the values of
the new `style2id` (not by style name): an existing style whose id occurs
there is kept as the very same object (identity, icon, voice samples);
one whose id is absent is dropped — it appears nowhere in the updated
speaker's styles — and a warning naming the speaker and the style is
collected. -/
theorem C2_update_styles_matched_by_local_id (existing_metadata : AivmMetadata)
    (hp0 : StyleBertVITS2HyperParameters) (sv : Option Bytes) (su : Nat → String)
    (md : AivmMetadata) (ws : List UpdateWarning)
    (h : updateAivmMetadataCompute existing_metadata hp0 sv su = Except.ok (md, ws))
    (sp : AivmSpeaker) (hsp : sp ∈ existing_metadata.manifest.speakers)
    (hid : sp.local_id ∈ avalues hp0.data.spk2id) :
    ∃ sp2 ∈ md.manifest.speakers,
      sp2.uuid = sp.uuid ∧ sp2.name = sp.name ∧ sp2.icon = sp.icon ∧
      sp2.local_id = sp.local_id ∧
      (∀ st ∈ sp.styles, st.local_id ∈ avalues hp0.data.style2id → st ∈ sp2.styles) ∧
      (∀ st ∈ sp.styles, st.local_id ∉ avalues hp0.data.style2id →
        st ∉ sp2.styles ∧
          UpdateWarning.styleDropped sp.name st.name st.local_id ∈ ws) := by
  unfold updateAivmMetadataCompute at h
  split at h
  · simp at h
  · next hp sv2 heq =>
    obtain ⟨hhp, _hsv⟩ :=
      loadAndValidateHP_ok existing_metadata.manifest.model_architecture hp0 sv (hp, sv2) heq
    simp only at hhp
    subst hhp
    split at h
    · simp at h
    · split at h
      · simp at h
      · injection h with h2
        injection h2 with hmd hws
        subst hmd
        subst hws
        have hpair : ((some (updateExistingSpeaker (jsBoolOpt hp.data.use_jp_extra)
              hp.data.style2id sp).1,
            (updateExistingSpeaker (jsBoolOpt hp.data.use_jp_extra) hp.data.style2id sp).2) :
              Option AivmSpeaker × List UpdateWarning) ∈
            updatePhase1 existing_metadata hp := by
          unfold updatePhase1
          refine List.mem_map.mpr ⟨sp, hsp, ?_⟩
          rw [if_pos hid]
        have hmem : (updateExistingSpeaker (jsBoolOpt hp.data.use_jp_extra)
            hp.data.style2id sp).1 ∈ updatedSpeakersOf existing_metadata hp su := by
          unfold updatedSpeakersOf
          exact List.mem_append_left _
            (List.mem_filterMap.mpr ⟨_, hpair, rfl⟩)
        obtain ⟨hu, hn, hi, hl, hstyles⟩ :=
          updateExistingSpeaker_fields (jsBoolOpt hp.data.use_jp_extra) hp.data.style2id sp
        refine ⟨_, hmem, hu, hn, hi, hl, ?_, ?_⟩
        · intro st hst hstid
          rw [hstyles]
          unfold reconcileStyles
          exact List.mem_append_left _ (List.mem_filter.mpr ⟨hst, by simpa using hstid⟩)
        · intro st hst hstid
          constructor
          · rw [hstyles]
            unfold reconcileStyles
            intro hmem2
            rcases List.mem_append.mp hmem2 with hk | ha
            · have := (List.mem_filter.mp hk).2
              simp at this
              exact hstid this
            · obtain ⟨p, hpmem, hpeq⟩ := List.mem_filterMap.mp ha
              by_cases hc : sp.styles.any (fun st0 => decide (st0.local_id = p.2))
              · rw [if_pos hc] at hpeq
                cases hpeq
              · rw [if_neg hc] at hpeq
                injection hpeq with hpe
                apply hstid
                rw [← hpe]
                show p.2 ∈ avalues hp.data.style2id
                exact List.mem_map.mpr ⟨p, hpmem, rfl⟩
          · show _ ∈ updateWarningsOf existing_metadata hp
            unfold updateWarningsOf
            apply List.mem_append_left
            apply List.mem_flatten.mpr
            refine ⟨(updateExistingSpeaker (jsBoolOpt hp.data.use_jp_extra)
                hp.data.style2id sp).2,
              List.mem_map.mpr ⟨_, hpair, rfl⟩, ?_⟩
            apply updateExistingSpeaker_warnings_sub
            unfold reconcileStyles
            apply List.mem_append_left
            exact List.mem_filterMap.mpr ⟨st, hst, by rw [if_neg hstid]⟩

theorem C2_update_styles_witness :
    ∃ sp2 ∈ mdC8.manifest.speakers,
      sp2.uuid = aliceSpk.uuid ∧ sp2.name = aliceSpk.name ∧ sp2.icon = aliceSpk.icon ∧
      sp2.local_id = aliceSpk.local_id ∧
      (∀ st ∈ aliceSpk.styles, st.local_id ∈ avalues hpScenB.data.style2id → st ∈ sp2.styles) ∧
      (∀ st ∈ aliceSpk.styles, st.local_id ∉ avalues hpScenB.data.style2id →
        st ∉ sp2.styles ∧
          UpdateWarning.styleDropped aliceSpk.name st.name st.local_id ∈ wsC8) :=
  C2_update_styles_matched_by_local_id mdEx hpScenB (some ['w']) (fun _ => "u") mdC8 wsC8
    (by rfl) aliceSpk (by decide) (by decide)

/-! ## C4 -/

/-- A manifest JSON object that differs from a schema-valid one only in
the architecture string. -/
def manifestJsonWithArch (arch : String) : JVal :=
  JVal.jobj [("manifest_version", JVal.jstr "1.0"),
             ("name", JVal.jstr "M"),
             ("model_architecture", JVal.jstr arch),
             ("model_format", JVal.jstr "Safetensors"),
             ("uuid", JVal.jstr "00000000-0000-0000-0000-000000000000"),
             ("version", JVal.jstr "1.0.0"),
             ("speakers", JVal.jarr [])]

/-- The serialized form of `manifestJsonWithArch "RVC"`. -/
def jsonC4 : String :=
  "\x7b\"manifest_version\":\"1.0\",\"name\":\"M\",\"model_architecture\":\"RVC\",\"model_format\":\"Safetensors\",\"uuid\":\"00000000-0000-0000-0000-000000000000\",\"version\":\"1.0.0\",\"speakers\":[]\x7d"

/-- Raw metadata whose manifest value is well-formed JSON conforming to
the schema except for an unrecognized architecture. -/
def rawC4 : List (String × String) :=
  [("aivm_manifest", jsonC4), ("aivm_hyper_parameters", "x")]

set_option maxRecDepth 8192 in
/-- C4 counterexample: a raw metadata map whose manifest JSON is
well-formed and schema-conformant except that `model_architecture` is the
unrecognized "RVC" makes `validateAivmMetadata` fail with the
manifest-stage `ValidationError` — the architecture enum of the manifest
schema is closed, so the parse dies at the manifest stage — and not with
the distinct `UnsupportedArchitectureError` kind.  The
otherwise-identical manifest with a recognized architecture passes the
manifest schema. -/
theorem C4_cex_unrecognized_arch_fails_at_manifest_stage :
    validateAivmMetadata rawC4 = Except.error ValidateErr.manifestInvalid ∧
    ValidateErr.manifestInvalid ≠ ValidateErr.unsupportedArchitecture ∧
    parseJson jsonC4.data = some (manifestJsonWithArch "RVC") ∧
    parseManifestJson (manifestJsonWithArch "RVC") = none ∧
    (parseManifestJson (manifestJsonWithArch "Style-Bert-VITS2")).isSome = true :=
  ⟨by rfl, by decide, by rfl, by rfl, by rfl⟩

/-- C4 amended: `validateAivmMetadata` never surfaces the
unsupported-architecture error kind, for any input: a manifest whose
architecture is outside the closed enum already fails the manifest stage,
and the internal unsupported-architecture throw of the hyperparameter
stage sits inside the try/catch that rethrows the hyper_parameters-stage
`ValidationError`. -/
theorem C4_validate_never_unsupported_architecture (raw : List (String × String)) :
    validateAivmMetadata raw ≠ Except.error ValidateErr.unsupportedArchitecture := by
  unfold validateAivmMetadata
  intro h
  repeat' split at h
  all_goals simp at h

/-! ## C6 -/

/-- C6 amended: on the tensor-container read, a header length exceeding
the available bytes yields the AIVM-format error (the slice sits in the
try/catch); an unparsable header yields the uncaught JSON syntax error —
`JSON.parse` sits OUTSIDE the try/catch — not the AIVM-format error. -/
theorem C6_read_error_kinds (b : Bytes) (h8 : 8 ≤ b.length) :
    (b.length < 8 + readU64 b →
      readAivmRawMetadata b = Except.error ContainerErr.containerFormatError) ∧
    (8 + readU64 b ≤ b.length →
      parseJson ((b.drop 8).take (readU64 b)) = none →
      readAivmRawMetadata b = Except.error ContainerErr.jsonSyntaxError) := by
  constructor
  · intro hH
    unfold readAivmRawMetadata
    rw [if_neg (by omega), if_pos hH]
  · intro hH hp
    unfold readAivmRawMetadata
    rw [if_neg (by omega), if_neg (by omega), hp]

theorem C6_read_error_kinds_witness :
    ((u64le 100).length < 8 + readU64 (u64le 100) →
      readAivmRawMetadata (u64le 100) = Except.error ContainerErr.containerFormatError) ∧
    (8 + readU64 (u64le 100) ≤ (u64le 100).length →
      parseJson (((u64le 100).drop 8).take (readU64 (u64le 100))) = none →
      readAivmRawMetadata (u64le 100) = Except.error ContainerErr.jsonSyntaxError) :=
  C6_read_error_kinds (u64le 100) (by decide)

/-- A container whose 8-byte prefix declares a 2-byte header "ab" that is
not JSON. -/
def bC6 : Bytes := u64le 2 ++ ['a', 'b']

/-- C6 counterexample: on a container whose header slices fine but is not
JSON, the read fails with the uncaught JSON syntax error, not with the
AIVM-format (`AivmFormatError`) kind the claim requires. -/
theorem C6_cex_json_failure_escapes_uncaught :
    readAivmRawMetadata bC6 = Except.error ContainerErr.jsonSyntaxError ∧
    ContainerErr.jsonSyntaxError ≠ ContainerErr.containerFormatError :=
  ⟨by rfl, by decide⟩

/-! ## C5 witness fixtures -/

/-- Header object of the witness container: a `__metadata__` object with
one entry and one unrelated header key. -/
def hdrC5 : List (String × JVal) :=
  [("__metadata__", JVal.jobj [("a", JVal.jstr "x")]), ("w", JVal.jnum 1)]

/-- The serialized form of `JVal.jobj hdrC5`. -/
def hdrStrC5 : String := "\x7b\"__metadata__\":\x7b\"a\":\"x\"\x7d,\"w\":1\x7d"

/-- The witness container bytes: size prefix, serialized header, payload. -/
def bC5 : Bytes := u64le hdrStrC5.data.length ++ hdrStrC5.data ++ ['P']

/-- The witness metadata entries: one overwriting key, one fresh key. -/
def entC5 : List (String × String) := [("a", "y"), ("b", "z")]

theorem C5_roundtrip_witness :
    readAivmRawMetadata bC5 = Except.ok [("a", JVal.jstr "x")] ∧
    ∃ out, writeAivmRaw bC5 entC5 = Except.ok out ∧
      out.drop (8 + readU64 out) = bC5.drop (8 + readU64 bC5) ∧
      readAivmRawMetadata out = Except.ok (mergeMeta [("a", JVal.jstr "x")] entC5) ∧
      ∀ k, alookup (mergeMeta [("a", JVal.jstr "x")] entC5) k =
        match alookup entC5 k with
        | some v => some (JVal.jstr v)
        | none => alookup [("a", JVal.jstr "x")] k :=
  tensor_container_roundtrip bC5 entC5 hdrC5 [("a", JVal.jstr "x")]
    (by decide) (by rfl) (Or.inr (by rfl)) (by decide)
    (by simp +decide [hdrC5, entC5, metaKeyStr, aset, mergeMeta, alookup,
      stringifyVal, stringifyFields, stringifyItems, stringifyInt, digitsOf,
      digitCh, escapeChars, qu, bs])

/-! ## C9: idempotence of the sync id-map rebuild -/

/-- The pass test of one `rebuildIdMap` item: the first entry of the
current map carrying the item's id exists, and its key is truthy. -/
def passB (old : List (String × Int)) (p : String × Int) : Bool :=
  match old.find? (fun q => decide (q.2 = p.2)) with
  | some q => !(decide (q.1 = ""))
  | none => false

/-- The pass test depends only on the item's id. -/
theorem passB_snd (old : List (String × Int)) (p q : String × Int)
    (h : p.2 = q.2) : passB old p = passB old q := by
  simp [passB, h]

/-- The object build over a list of bindings, from an accumulator. -/
def buildFold (acc l : List (String × Int)) : List (String × Int) :=
  l.foldl (fun acc p => aset acc p.1 p.2) acc

/-- Property assignment with a fresh key appends the binding. -/
theorem aset_eq_append : ∀ (l : List (String × Int)) (k : String) (v : Int),
    k ∉ l.map Prod.fst → aset l k v = l ++ [(k, v)]
  | [], _, _, _ => rfl
  | (a, b) :: t, k, v, h => by
    simp only [List.map_cons, List.mem_cons, not_or] at h
    rw [aset, if_neg (fun he => h.1 he.symm), aset_eq_append t k v h.2]
    rfl

/-- `rebuildIdMap` builds the object from exactly the passing items. -/
theorem rebuildIdMap_go (old : List (String × Int)) :
    ∀ (items acc : List (String × Int)),
    items.foldl (fun acc p =>
      match old.find? (fun q => decide (q.2 = p.2)) with
      | some q => if q.1 = "" then acc else aset acc p.1 p.2
      | none => acc) acc
    = buildFold acc (items.filter (passB old))
  | [], _ => rfl
  | p :: t, acc => by
    rcases hf : old.find? (fun q => decide (q.2 = p.2)) with _ | q
    · have hp : passB old p = false := by simp [passB, hf]
      simp only [List.foldl_cons, List.filter_cons, hp, hf, Bool.false_eq_true,
        if_false]
      exact rebuildIdMap_go old t acc
    · by_cases hq : q.1 = ""
      · have hp : passB old p = false := by simp [passB, hf, hq]
        simp only [List.foldl_cons, List.filter_cons, hp, hf, hq,
          Bool.false_eq_true, if_false, if_true, if_pos rfl]
        exact rebuildIdMap_go old t acc
      · have hp : passB old p = true := by simp [passB, hf, hq]
        simp only [List.foldl_cons, List.filter_cons, hp, hf, if_neg hq, if_true]
        rw [buildFold, List.foldl_cons]
        exact rebuildIdMap_go old t (aset acc p.1 p.2)

theorem rebuildIdMap_eq_buildFold (items old : List (String × Int)) :
    rebuildIdMap items old = buildFold [] (items.filter (passB old)) :=
  rebuildIdMap_go old items []

/-- Building from pairwise-fresh, mutually distinct keys appends them all. -/
theorem buildFold_eq_append : ∀ (l acc : List (String × Int)),
    (∀ p ∈ l, p.1 ∉ acc.map Prod.fst) → (l.map Prod.fst).Nodup →
    buildFold acc l = acc ++ l
  | [], acc, _, _ => by simp [buildFold]
  | p :: t, acc, hfresh, hnd => by
    rw [buildFold, List.foldl_cons,
      aset_eq_append acc p.1 p.2 (hfresh p (List.mem_cons_self p t))]
    have hnd' := hnd
    rw [List.map_cons, List.nodup_cons] at hnd'
    have hrec := buildFold_eq_append t (acc ++ [(p.1, p.2)])
      (fun q hq => by
        simp only [List.map_append, List.mem_append, List.map_cons,
          List.map_nil, List.mem_singleton, not_or]
        exact ⟨hfresh q (List.mem_cons_of_mem p hq),
          fun he => hnd'.1 (he ▸ List.mem_map_of_mem Prod.fst hq)⟩)
      hnd'.2
    rw [buildFold] at hrec
    rw [hrec, List.append_assoc]
    rfl

/-- The names of the object `rebuildIdMap` builds come from the items, and
its bindings all passed. -/
theorem rebuildIdMap_idem (items old : List (String × Int))
    (hB : ∀ p ∈ items, p.1 ≠ "")
    (hN : (items.map Prod.fst).Nodup) :
    rebuildIdMap items (rebuildIdMap items old) = rebuildIdMap items old := by
  have hndF : ((items.filter (passB old)).map Prod.fst).Nodup :=
    hN.sublist ((items.filter_sublist).map Prod.fst)
  have h1 : rebuildIdMap items old = items.filter (passB old) := by
    rw [rebuildIdMap_eq_buildFold,
      buildFold_eq_append _ [] (fun p _ => by simp) hndF]
    rfl
  have hpass : ∀ p ∈ items,
      passB (items.filter (passB old)) p = passB old p := by
    intro p hp
    cases hpo : passB old p with
    | true =>
      have hpF : p ∈ items.filter (passB old) := List.mem_filter.mpr ⟨hp, hpo⟩
      have hfs : ((items.filter (passB old)).find?
          (fun q => decide (q.2 = p.2))).isSome := by
        rw [List.find?_isSome]
        exact ⟨p, hpF, by simp⟩
      rcases hq : (items.filter (passB old)).find? (fun q => decide (q.2 = p.2))
        with _ | q
      · rw [hq] at hfs; simp at hfs
      · have hqmem : q ∈ items.filter (passB old) := List.mem_of_find?_eq_some hq
        have hqit : q ∈ items := (List.mem_filter.mp hqmem).1
        simp [passB, hq, hB q hqit]
    | false =>
      rcases hq : (items.filter (passB old)).find? (fun q => decide (q.2 = p.2))
        with _ | q
      · simp [passB, hq]
      · exfalso
        have hqmem := List.mem_of_find?_eq_some hq
        have hqpass : passB old q = true := (List.mem_filter.mp hqmem).2
        have hqsnd : q.2 = p.2 := by
          have := List.find?_some hq
          simpa using this
        rw [passB_snd old q p hqsnd, hpo] at hqpass
        exact absurd hqpass (by simp)
  have h2 : items.filter (passB (items.filter (passB old))) =
      items.filter (passB old) := List.filter_congr hpass
  rw [h1, rebuildIdMap_eq_buildFold, h2,
    buildFold_eq_append _ [] (fun p _ => by simp) hndF]
  rfl

/-- A speaker fixture with duplicated style names across speakers. -/
def spC9a : AivmSpeaker :=
  { name := "Alice", icon := DEFAULT_ICON_DATA_URL, supported_languages := ["ja"],
    uuid := "00000000-0000-0000-0000-000000000001", local_id := 0,
    styles := [{ name := "N", icon := none, local_id := 1, voice_samples := [] },
               { name := "B", icon := none, local_id := 2, voice_samples := [] }] }

/-- The second speaker, whose style reuses the name "N" with a new id. -/
def spC9b : AivmSpeaker :=
  { name := "Bob", icon := DEFAULT_ICON_DATA_URL, supported_languages := ["ja"],
    uuid := "00000000-0000-0000-0000-000000000002", local_id := 1,
    styles := [{ name := "N", icon := none, local_id := 3, voice_samples := [] }] }

/-- An aggregate on which sync is not idempotent: the flattened style
items carry the name "N" twice with different ids. -/
def mdC9 : AivmMetadata :=
  { manifest := { DefaultAivmManifest with
      model_architecture := "Style-Bert-VITS2"
      speakers := [spC9a, spC9b] }
    hyper_parameters :=
      { model_name := "M"
        version := "2.4.1"
        data := { use_jp_extra := some false
                  training_files := some "a"
                  validation_files := some "b"
                  n_speakers := 2
                  spk2id := [("Alice", 0), ("Bob", 1)]
                  num_styles := 3
                  style2id := [("x", 1), ("y", 2), ("z", 3)] } }
    style_vectors := some ['v'] }

/-- C9 counterexample: on `mdC9` — style vectors present, so sync's
precondition holds, and both sync calls succeed — the second sync changes
`style2id` again: the duplicated style name "N" (ids 1 and 3) makes the
first rebuild bind "N" at the first position with the LAST id, after which
id 1 no longer occurs as a value, so the second rebuild drops the first
item and re-binds "N" at the back, reordering the object keys. -/
theorem C9_cex_sync_twice_differs :
    ∃ md1 md2,
      applyAivmManifestToHyperParameters mdC9 = Except.ok md1 ∧
      applyAivmManifestToHyperParameters md1 = Except.ok md2 ∧
      md1.hyper_parameters.data.style2id = [("N", 3), ("B", 2)] ∧
      md2.hyper_parameters.data.style2id = [("B", 2), ("N", 3)] ∧
      md2.hyper_parameters ≠ md1.hyper_parameters :=
  ⟨syncPost mdC9, syncPost (syncPost mdC9), by rfl, by rfl, by rfl, by rfl,
    by decide⟩

/-- C9 amended: sync IS idempotent on every aggregate whose style vectors
are present and whose manifest carries pairwise-distinct, nonempty speaker
names and pairwise-distinct, nonempty style names (across all speakers):
a second `applyAivmManifestToHyperParameters` returns the once-synced
aggregate unchanged.  (For an unrecognized architecture sync is the
identity and the claim is trivial.) -/
theorem C9_sync_idempotent_for_unique_nonempty_names (md : AivmMetadata)
    (hBs : ∀ sp ∈ md.manifest.speakers, sp.name ≠ "")
    (hNs : (md.manifest.speakers.map AivmSpeaker.name).Nodup)
    (hBt : ∀ sp ∈ md.manifest.speakers, ∀ st ∈ sp.styles, st.name ≠ "")
    (hNt : ((md.manifest.speakers.map
      (fun sp => sp.styles.map AivmStyle.name)).flatten).Nodup)
    (md1 : AivmMetadata)
    (h : applyAivmManifestToHyperParameters md = Except.ok md1) :
    applyAivmManifestToHyperParameters md1 = Except.ok md1 := by
  have hBs' : ∀ p ∈ md.manifest.speakers.map (fun sp => (sp.name, sp.local_id)),
      p.1 ≠ "" := by
    intro p hp
    rcases List.mem_map.mp hp with ⟨sp, hsp, rfl⟩
    exact hBs sp hsp
  have hNs' : ((md.manifest.speakers.map
      (fun sp => (sp.name, sp.local_id))).map Prod.fst).Nodup := by
    simpa [List.map_map, Function.comp] using hNs
  have hBt' : ∀ p ∈ (md.manifest.speakers.map
      (fun sp => sp.styles.map (fun st => (st.name, st.local_id)))).flatten,
      p.1 ≠ "" := by
    intro p hp
    rcases List.mem_flatten.mp hp with ⟨l, hl, hpl⟩
    rcases List.mem_map.mp hl with ⟨sp, hsp, rfl⟩
    rcases List.mem_map.mp hpl with ⟨st, hst, rfl⟩
    exact hBt sp hsp st hst
  have hNt' : (((md.manifest.speakers.map
      (fun sp => sp.styles.map (fun st => (st.name, st.local_id)))).flatten).map
      Prod.fst).Nodup := by
    simpa [List.map_flatten, List.map_map, Function.comp_def] using hNt
  unfold applyAivmManifestToHyperParameters at h ⊢
  by_cases harch : md.manifest.model_architecture ∈ recognizedArchitectures
  · rw [if_pos harch] at h
    rcases hsv : md.style_vectors with _ | sv
    · rw [hsv] at h
      exact absurd h (by simp)
    · rw [hsv] at h
      simp only [Except.ok.injEq] at h
      subst h
      dsimp only
      rw [if_pos harch]
      rw [rebuildIdMap_idem _ _ hBs' hNs', rebuildIdMap_idem _ _ hBt' hNt']
  · rw [if_neg harch] at h
    simp only [Except.ok.injEq] at h
    subst h
    rw [if_neg harch]

/-- An aggregate with unique nonempty names on which sync does real work. -/
def mdC9w : AivmMetadata :=
  { manifest := { DefaultAivmManifest with
      model_architecture := "Style-Bert-VITS2"
      speakers := [{ spC9a with
        styles := [{ name := "N", icon := none, local_id := 1,
                     voice_samples := [] }] }] }
    hyper_parameters :=
      { model_name := "M"
        version := "2.4.1"
        data := { use_jp_extra := some false
                  training_files := some "a"
                  validation_files := some "b"
                  n_speakers := 1
                  spk2id := [("Alice", 0)]
                  num_styles := 1
                  style2id := [("x", 1)] } }
    style_vectors := some ['v'] }

theorem C9_sync_idempotent_witness :
    applyAivmManifestToHyperParameters (syncPost mdC9w) =
      Except.ok (syncPost mdC9w) :=
  C9_sync_idempotent_for_unique_nonempty_names mdC9w (by decide) (by decide)
    (by decide) (by decide) (syncPost mdC9w) (by rfl)

end Aivmlib

